import Mathlib

/-!
# CyberSentinel dashboard refresh (`src/web/static/js/dashboard.js`)

A shallow embedding of the three refresh operations `updateStats`,
`updateRecentThreats`, `updateProtectionStatus` and of `updateAllData`.

* A parsed JSON body is a `JsVal`; property reads, `ToString`, the `textContent`
  setter conversion and strict equality follow ECMAScript / WebIDL.
* The page is a `Dom`: one field per element the code looks up by id, `none`
  when the page has no such element (`getElementById` returns `null`).
* A block of statements is a `Js` computation: it threads the `World` (page and
  console) and may throw; writes made before a throw stay made.
* What the network did is an input (`FetchOutcome`): `fetch` rejected, or it
  resolved with a response of some HTTP status whose body either parses as JSON
  or makes `response.json()` reject.
* The startup handler and its `setInterval` timer run on a `Page` whose clock
  counts milliseconds and fires a timer exactly when it is due.
* `animateCounter` of `src/web/static/js/script.js` and its timer callback are
  embedded over IEEE-754 doubles: a number is its count of units of 2^-1074, every
  quotient and sum is rounded to 53 significant bits with ties to even, and `NaN`
  is a value of its own.
-/

namespace CyberSentinel

/-! ## JavaScript values -/

/-- An integer of magnitude at most 2^53. A double holds every such integer
exactly, and `Number::toString` prints it as its decimal digits. -/
structure SafeInt where
  val : Int
  safe : val.natAbs ≤ 9007199254740992
  deriving DecidableEq

/-- Values reachable from a `response.json()` result. A number is a double: `num`
holds one that is an integer of magnitude at most 2^53, `numText` any other number
(a fraction, a larger magnitude, an infinity), known by the text
`Number::toString` gives for it. `undefined` is what reading a missing property
yields. An object is the list of its own properties (keys distinct, as
`JSON.parse` leaves them). -/
inductive JsVal where
  | undefined
  | null
  | bool (b : Bool)
  | num (n : SafeInt)
  | numText (text : String)
  | str (s : String)
  | arr (items : List JsVal)
  | obj (props : List (String × JsVal))

/-- The exceptions the refresh code can meet. -/
inductive JsError where
  /-- `fetch` rejected: the request could not be sent or no response came back. -/
  | fetchFailed
  /-- `response.json()` rejected: the body is not valid JSON. -/
  | bodyNotJson
  /-- `TypeError`: property read of `null`/`undefined`, call of a non-function, or
  conversion to a primitive of an object that has no callable `toString`. -/
  | typeError
  deriving DecidableEq, Repr

deriving instance DecidableEq for Except

mutual
/-- ECMAScript `ToString` on a value (template-literal interpolation, property keys,
conversion to a DOMString). An array goes through `join`. An object parsed from
JSON goes through `OrdinaryToPrimitive`: an own `toString` property, never
callable, hides `Object.prototype.toString` and the conversion throws a
`TypeError`; without one the text is `[object Object]`. -/
def JsVal.toJsString : JsVal → Except JsError String
  | .undefined => .ok "undefined"
  | .null => .ok "null"
  | .bool true => .ok "true"
  | .bool false => .ok "false"
  | .num n => .ok (toString n.val)
  | .numText text => .ok text
  | .str s => .ok s
  | .arr items => JsVal.joinItems items
  | .obj props =>
    if (props.lookup "toString").isSome then .error .typeError else .ok "[object Object]"
termination_by structural v => v
/-- The text of `Array.prototype.join(",")`, which `ToString` of an array returns:
a `null` or `undefined` item contributes the empty text, any other item its
`ToString`, which may throw. -/
def JsVal.joinItems : List JsVal → Except JsError String
  | [] => .ok ""
  | v :: rest =>
    match (match v with
      | .undefined => Except.ok ""
      | .null => Except.ok ""
      | v => JsVal.toJsString v) with
    | .error e => .error e
    | .ok head =>
      match rest with
      | [] => .ok head
      | _ =>
        match JsVal.joinItems rest with
        | .error e => .error e
        | .ok tail => .ok (head ++ "," ++ tail)
termination_by structural items => items
end

/-- The DOMString a nullable string attribute (`textContent`) receives: `null` and
`undefined` become the empty text, everything else goes through `ToString`. -/
def JsVal.toDomString : JsVal → Except JsError String
  | .undefined => .ok ""
  | .null => .ok ""
  | v => v.toJsString

/-- A value that is neither an array nor an object: its `ToString` cannot throw. -/
def JsVal.isPrimitive : JsVal → Bool
  | .arr _ => false
  | .obj _ => false
  | _ => true

/-- Number of low bits a natural number `a` loses when kept to 53 significant
bits; `fuel` bounds the halvings and `a` itself is always enough. -/
def excessBits : Nat → Nat → Nat
  | 0, _ => 0
  | fuel + 1, a => if a < 2 ^ 53 then 0 else 1 + excessBits fuel (a / 2)

/-- The quotient `p / d` rounded to the nearest integer, ties to the even one. -/
def roundDiv (p d : Nat) : Nat :=
  if d < 2 * (p % d) ∨ (2 * (p % d) = d ∧ (p / d) % 2 = 1) then p / d + 1 else p / d

/-- The quotient `p / q` rounded to 53 significant bits, ties to even: IEEE 754
round-to-nearest on a grid of integers (no overflow). -/
def round53 (p q : Nat) : Nat :=
  roundDiv p (q * 2 ^ excessBits (p / q) (p / q)) * 2 ^ excessBits (p / q) (p / q)

/-- The double nearest to an integer, as `JSON.parse` and `parseInt` produce it
(magnitudes below 2^1024). -/
def nearestDouble (n : Int) : Int :=
  match n with
  | .ofNat a => .ofNat (round53 a 1)
  | .negSucc a => -(.ofNat (round53 (a + 1) 1))

/-- Property read `v.key` for the keys the dashboard reads (`servers`, `users`,
`threats_blocked`, `scans_performed`, `type`, `severity`, `timestamp`, `status`,
`level`, `features_enabled`; no built-in prototype defines any of them): a
`TypeError` on `null`/`undefined`, the own property of an object, `undefined`
otherwise. -/
def JsVal.getProp (v : JsVal) (key : String) : Except JsError JsVal :=
  match v with
  | .undefined => .error .typeError
  | .null => .error .typeError
  | .obj props => .ok ((props.lookup key).getD .undefined)
  | _ => .ok .undefined

/-- Strict equality `v === s` against a string literal. -/
def JsVal.strictEqStr (v : JsVal) (s : String) : Bool :=
  match v with
  | .str t => t == s
  | _ => false

/-! ## Host services the code calls but does not define -/

/-- Host functions whose text output the code interpolates. -/
structure Host where
  /-- `new Date(v).toLocaleString('ar-SA')` for a `v` that converts to a primitive. -/
  localeDate : JsVal → String
  /-- `ToString` of the member of `Object.prototype` with the given name. -/
  memberText : String → String
  /-- `Number::toString` of the double nearest to an integer, used where that
  double is not an integer of magnitude at most 2^53. -/
  numberText : Int → String

/-- The number `JSON.parse` makes of an integer literal: the nearest double. -/
def JsVal.ofJsonInteger (H : Host) (n : Int) : JsVal :=
  if h : (nearestDouble n).natAbs ≤ 9007199254740992 then .num ⟨nearestDouble n, h⟩
  else .numText (H.numberText n)

/-- Expression `new Date(v).toLocaleString('ar-SA')`: `new Date` first converts an
array or object to a primitive, which throws exactly when its `ToString` throws. -/
def localeDateText (H : Host) (v : JsVal) : Except JsError String :=
  match v.toJsString with
  | .error e => .error e
  | .ok _ => .ok (H.localeDate v)

/-! ## The page and the console -/

/-- A `<tr>` built by `updateRecentThreats`: its class and the markup assigned to it. -/
structure Row where
  className : String
  innerHTML : String
  deriving DecidableEq, Repr

/-- The `protection-status` element: its text and its class. -/
structure StatusElem where
  textContent : String
  className : String
  deriving DecidableEq, Repr

/-- The elements the dashboard looks up by id; `none` when `getElementById`
finds nothing. Text-only elements are held by their text, the threats table by
its child rows, the feature list by its markup. -/
structure Dom where
  serversCount : Option String
  usersCount : Option String
  threatsBlocked : Option String
  scansCount : Option String
  threatsTable : Option (List Row)
  protectionStatus : Option StatusElem
  protectionLevel : Option String
  enabledFeatures : Option String
  deriving DecidableEq, Repr

/-- One `console.error(context, error)` call. -/
structure LogEntry where
  context : String
  error : JsError
  deriving DecidableEq, Repr

/-- Everything the refresh code can change. -/
structure World where
  dom : Dom
  console : List LogEntry
  deriving DecidableEq, Repr

/-- What `response.json()` finds: `body = none` when the body is not valid JSON.
The code never reads `status`. -/
structure Response where
  status : Nat
  body : Option JsVal

/-- What `fetch(url)` did. -/
inductive FetchOutcome where
  | failed
  | responded (r : Response)

/-- Settled state of the promise an `async function` returns. -/
inductive Completion where
  | fulfilled
  | rejected (e : JsError)
  deriving DecidableEq, Repr

/-! ## Statement blocks -/

/-- A block of statements: runs on a world, leaves a world, returns or throws. -/
def Js (α : Type) : Type := World → Except JsError α × World

/-- Normal completion with a value. -/
def Js.ret {α : Type} (a : α) : Js α := fun w => (.ok a, w)

/-- Sequencing: a throw in the first part skips the rest and keeps its writes. -/
def Js.seq {α β : Type} (m : Js α) (f : α → Js β) : Js β := fun w =>
  match m w with
  | (.ok a, w1) => f a w1
  | (.error e, w1) => (.error e, w1)

instance : Monad Js where
  pure := Js.ret
  bind := Js.seq

/-- A pure evaluation that may throw, used as a statement. -/
def Js.eval {α : Type} (r : Except JsError α) : Js α := fun w => (r, w)

/-- Block `try { body } catch (error) { handler error }`. -/
def tryCatch (body : Js Unit) (handler : JsError → Js Unit) : Js Unit := fun w =>
  match body w with
  | (.ok u, w1) => (.ok u, w1)
  | (.error e, w1) => handler e w1

/-- Call `console.error(context, error)`. -/
def consoleError (context : String) (e : JsError) : Js Unit := fun w =>
  (.ok (), { w with console := w.console ++ [⟨context, e⟩] })

/-- Body of an `async function`: a throw that escapes rejects the returned promise. -/
def runAsync (body : Js Unit) (w : World) : Completion × World :=
  match body w with
  | (.ok _, w1) => (.fulfilled, w1)
  | (.error e, w1) => (.rejected e, w1)

/-- Expression `await fetch(url)`. -/
def awaitFetch (o : FetchOutcome) : Js Response :=
  match o with
  | .failed => Js.eval (.error .fetchFailed)
  | .responded r => Js.ret r

/-- Expression `await response.json()`. -/
def awaitJson (r : Response) : Js JsVal :=
  match r.body with
  | none => Js.eval (.error .bodyNotJson)
  | some v => Js.ret v

/-! ## DOM statements -/

/-- The elements written through `textContent` alone. -/
inductive TextSlot where
  | serversCount
  | usersCount
  | threatsBlocked
  | scansCount
  | protectionLevel
  deriving DecidableEq, Repr

/-- Text of a text-only element, `none` when the element is absent. -/
def Dom.text (d : Dom) : TextSlot → Option String
  | .serversCount => d.serversCount
  | .usersCount => d.usersCount
  | .threatsBlocked => d.threatsBlocked
  | .scansCount => d.scansCount
  | .protectionLevel => d.protectionLevel

/-- The page with the text of one text-only element replaced. -/
def Dom.setText (d : Dom) (slot : TextSlot) (t : String) : Dom :=
  match slot with
  | .serversCount => { d with serversCount := some t }
  | .usersCount => { d with usersCount := some t }
  | .threatsBlocked => { d with threatsBlocked := some t }
  | .scansCount => { d with scansCount := some t }
  | .protectionLevel => { d with protectionLevel := some t }

/-- Statement `document.getElementById(id).textContent = v` on a text-only element:
a `TypeError` when the element is absent or `v` does not convert to a string,
else the text is replaced. -/
def assignText (slot : TextSlot) (v : JsVal) : Js Unit := fun w =>
  match w.dom.text slot with
  | none => (.error .typeError, w)
  | some _ =>
    match v.toDomString with
    | .error e => (.error e, w)
    | .ok t => (.ok (), { w with dom := w.dom.setText slot t })

/-- Statement `document.getElementById('protection-status').textContent = v`. -/
def assignStatusText (v : JsVal) : Js Unit := fun w =>
  match w.dom.protectionStatus with
  | none => (.error .typeError, w)
  | some el =>
    match v.toDomString with
    | .error e => (.error e, w)
    | .ok t =>
      (.ok (), { w with dom := { w.dom with
        protectionStatus := some { el with textContent := t } } })

/-- Statement `statusElement.className = cls` on `protection-status`. -/
def assignStatusClass (cls : String) : Js Unit := fun w =>
  match w.dom.protectionStatus with
  | none => (.error .typeError, w)
  | some el =>
    (.ok (), { w with dom := { w.dom with
      protectionStatus := some { el with className := cls } } })

/-- Statement `featuresList.innerHTML = markup` on `enabled-features`. -/
def assignFeatures (markup : String) : Js Unit := fun w =>
  match w.dom.enabledFeatures with
  | none => (.error .typeError, w)
  | some _ => (.ok (), { w with dom := { w.dom with enabledFeatures := some markup } })

/-- Statement `threatTable.innerHTML = ''` on `threats-table`: every child goes. -/
def clearTable : Js Unit := fun w =>
  match w.dom.threatsTable with
  | none => (.error .typeError, w)
  | some _ => (.ok (), { w with dom := { w.dom with threatsTable := some [] } })

/-- Statement `threatTable.appendChild(row)`. -/
def appendRow (row : Row) : Js Unit := fun w =>
  match w.dom.threatsTable with
  | none => (.error .typeError, w)
  | some rows =>
    (.ok (), { w with dom := { w.dom with threatsTable := some (rows ++ [row]) } })

/-- Loop `items.forEach(f)` over the items of an array, in index order; a throw in
the callback ends the loop. -/
def forEachItem (f : JsVal → Js Unit) : List JsVal → Js Unit
  | [] => Js.ret ()
  | v :: rest => Js.seq (f v) (fun _ => forEachItem f rest)

/-- Call `v.forEach(f)`: only an array has the method; on anything else the call
is a `TypeError`. -/
def callForEach (v : JsVal) (f : JsVal → Js Unit) : Js Unit :=
  match v with
  | .arr items => forEachItem f items
  | _ => Js.eval (.error .typeError)

/-! ## `updateStats` -/

/-- Source `updateStats` (dashboard.js, lines 2-14). -/
def updateStats (o : FetchOutcome) : World → Completion × World :=
  runAsync (tryCatch
    (do
      let response ← awaitFetch o
      let data ← awaitJson response
      assignText .serversCount (← Js.eval (data.getProp "servers"))
      assignText .usersCount (← Js.eval (data.getProp "users"))
      assignText .threatsBlocked (← Js.eval (data.getProp "threats_blocked"))
      assignText .scansCount (← Js.eval (data.getProp "scans_performed")))
    (consoleError "خطأ في تحديث الإحصائيات:"))

/-! ## `updateRecentThreats` -/

/-- Value of the `severityClass` constant: a class string, or a member the lookup
inherited from `Object.prototype`. -/
inductive BadgeStyle where
  | cls (s : String)
  | inherited (key : String)
  deriving DecidableEq, Repr

/-- Own properties of the object literal on lines 29-33. -/
def severityTable : List (String × String) :=
  [("عالي", "bg-red-100 text-red-800"),
   ("متوسط", "bg-yellow-100 text-yellow-800"),
   ("منخفض", "bg-green-100 text-green-800")]

/-- Names every object literal inherits from `Object.prototype`; each is bound to
a function or, for `__proto__`, to an object: all truthy. -/
def objectPrototypeKeys : List String :=
  ["constructor", "hasOwnProperty", "isPrototypeOf", "propertyIsEnumerable",
   "toLocaleString", "toString", "valueOf", "__proto__", "__defineGetter__",
   "__defineSetter__", "__lookupGetter__", "__lookupSetter__"]

/-- Source lines 29-33: the literal indexed by `threat.severity` (the key is
`ToString` of the value, which may throw; own properties first, then the
prototype), with the fallback on a miss. -/
def severityClass (severity : JsVal) : Except JsError BadgeStyle :=
  match severity.toJsString with
  | .error e => .error e
  | .ok key =>
    match severityTable.lookup key with
    | some cls => .ok (.cls cls)
    | none =>
      if key ∈ objectPrototypeKeys then .ok (.inherited key)
      else .ok (.cls "bg-gray-100 text-gray-800")

/-- Text that interpolating `severityClass` puts in the markup. -/
def BadgeStyle.text (H : Host) : BadgeStyle → String
  | .cls s => s
  | .inherited key => H.memberText key

/-- Source lines 26-48: the row built from one item of the response. Reading a
property of a `null` item, or interpolating a field that does not convert to a
string, throws before the row is appended. -/
def renderRow (H : Host) (threat : JsVal) : Except JsError Row := do
  let style ← severityClass (← threat.getProp "severity")
  let type ← (← threat.getProp "type").toJsString
  let severity ← (← threat.getProp "severity").toJsString
  let date ← localeDateText H (← threat.getProp "timestamp")
  pure
    { className := "table-row hover:bg-gray-50"
      innerHTML :=
        "\n                <td class=\"px-6 py-4\">"
        ++ type ++
        "</td>\n                <td class=\"px-6 py-4\">\n                    <span class=\"px-2 py-1 rounded-full "
        ++ style.text H ++
        "\">\n                        "
        ++ severity ++
        "\n                    </span>\n                </td>\n                <td class=\"px-6 py-4\">"
        ++ date ++
        "</td>\n                <td class=\"px-6 py-4\">\n                    <button class=\"text-blue-600 hover:text-blue-800 transition-colors duration-200\">\n                        التفاصيل\n                    </button>\n                </td>\n            " }

/-- The arrow function given to `forEach` (lines 25-51): build the row, append it. -/
def addThreatRow (H : Host) (threat : JsVal) : Js Unit := do
  let row ← Js.eval (renderRow H threat)
  appendRow row

/-- Source `updateRecentThreats` (dashboard.js, lines 17-55). -/
def updateRecentThreats (H : Host) (o : FetchOutcome) : World → Completion × World :=
  runAsync (tryCatch
    (do
      let response ← awaitFetch o
      let threats ← awaitJson response
      clearTable
      callForEach threats (addThreatRow H))
    (consoleError "خطأ في تحديث التهديدات:"))

/-! ## `updateProtectionStatus` -/

/-- Template on line 68, one list item; interpolating the feature may throw. -/
def featureItem (feature : JsVal) : Except JsError String :=
  match feature.toJsString with
  | .error e => .error e
  | .ok text => .ok ("<li class=\"feature-list-item\">" ++ text ++ "</li>")

/-- The items of `features.map(...)`, in order, up to the first that throws. -/
def featureItems : List JsVal → Except JsError (List String)
  | [] => .ok []
  | feature :: rest =>
    match featureItem feature with
    | .error e => .error e
    | .ok item =>
      match featureItems rest with
      | .error e => .error e
      | .ok items => .ok (item :: items)

/-- Source lines 67-69: `features.map(...).join('')`; only an array has `map`. -/
def featuresMarkup (features : JsVal) : Except JsError String :=
  match features with
  | .arr items =>
    match featureItems items with
    | .error e => .error e
    | .ok texts => .ok (String.join texts)
  | _ => .error .typeError

/-- Source lines 73-75: the class chosen from `status.status`. -/
def statusClass (status : JsVal) : String :=
  if status.strictEqStr "نشط" then "text-lg font-semibold text-green-600"
  else "text-lg font-semibold text-red-600"

/-- Source `updateProtectionStatus` (dashboard.js, lines 58-79). -/
def updateProtectionStatus (o : FetchOutcome) : World → Completion × World :=
  runAsync (tryCatch
    (do
      let response ← awaitFetch o
      let status ← awaitJson response
      assignStatusText (← Js.eval (status.getProp "status"))
      assignText .protectionLevel (← Js.eval (status.getProp "level"))
      let features ← Js.eval (status.getProp "features_enabled")
      assignFeatures (← Js.eval (featuresMarkup features))
      assignStatusClass (statusClass (← Js.eval (status.getProp "status"))))
    (consoleError "خطأ في تحديث حالة الحماية:"))

/-! ## `updateAllData` -/

/-- The three refresh operations. -/
inductive Op where
  | stats
  | threats
  | protection
  deriving DecidableEq, Repr

/-- One operation, from its request to its last write. All its writes follow its
last `await`, so it runs on the page without interleaving. -/
def runOp (H : Host) (outs : Op → FetchOutcome) : Op → World → Completion × World
  | .stats => updateStats (outs .stats)
  | .threats => updateRecentThreats H (outs .threats)
  | .protection => updateProtectionStatus (outs .protection)

/-- Source `updateAllData` (lines 82-86) followed to the settling of the three
promises it drops: `order` is the order in which the operations get their
responses (nothing in the code fixes it). Returns the settled promises. -/
def updateAllData (H : Host) (outs : Op → FetchOutcome) :
    List Op → World → List Completion × World
  | [], w => ([], w)
  | op :: rest, w =>
    let r := runOp H outs op w
    let rs := updateAllData H outs rest r.2
    (r.1 :: rs.1, rs.2)

/-- The `ok` flag of a response (status 200 to 299). No refresh operation reads it. -/
def Response.ok (r : Response) : Bool :=
  decide (200 ≤ r.status) && decide (r.status ≤ 299)

/-! ## Well-formed bodies -/

/-- A threat record whose fields the template can interpolate: an object whose
`type`, `severity` and `timestamp` are primitives (a missing one reads as
`undefined`). -/
def JsVal.isThreatRecord : JsVal → Bool
  | .obj props =>
    ((props.lookup "type").getD .undefined).isPrimitive
      && ((props.lookup "severity").getD .undefined).isPrimitive
      && ((props.lookup "timestamp").getD .undefined).isPrimitive
  | _ => false

/-- The own properties of a /stats body whose four fields are primitives. -/
def isStatsBody (props : List (String × JsVal)) : Bool :=
  ((props.lookup "servers").getD .undefined).isPrimitive
    && ((props.lookup "users").getD .undefined).isPrimitive
    && ((props.lookup "threats_blocked").getD .undefined).isPrimitive
    && ((props.lookup "scans_performed").getD .undefined).isPrimitive

/-- The own properties of a /protection-status body whose `status` and `level` are
primitives and whose `features_enabled` is an array of primitives. -/
def isStatusBody (props : List (String × JsVal)) : Bool :=
  ((props.lookup "status").getD .undefined).isPrimitive
    && ((props.lookup "level").getD .undefined).isPrimitive
    && (match props.lookup "features_enabled" with
        | some (.arr items) => items.all JsVal.isPrimitive
        | _ => false)

/-! ## Regions of the page -/

/-- The operation whose region a text-only element belongs to. -/
def TextSlot.region : TextSlot → Op
  | .serversCount => .stats
  | .usersCount => .stats
  | .threatsBlocked => .stats
  | .scansCount => .stats
  | .protectionLevel => .protection

/-- Two pages show the same thing in the region of `op`: the four counter slots
for `stats`, the threats table for `threats`, the status element (text and class),
the level text and the feature list for `protection`. -/
def Dom.sameRegion (op : Op) (d1 d2 : Dom) : Prop :=
  match op with
  | .stats =>
    d1.serversCount = d2.serversCount ∧ d1.usersCount = d2.usersCount
      ∧ d1.threatsBlocked = d2.threatsBlocked ∧ d1.scansCount = d2.scansCount
  | .threats => d1.threatsTable = d2.threatsTable
  | .protection =>
    d1.protectionStatus = d2.protectionStatus ∧ d1.protectionLevel = d2.protectionLevel
      ∧ d1.enabledFeatures = d2.enabledFeatures

instance (op : Op) (d1 d2 : Dom) : Decidable (Dom.sameRegion op d1 d2) := by
  cases op <;> (unfold Dom.sameRegion; infer_instance)

/-- Two pages hold the same elements, whatever their content. -/
def Dom.sameElements (d1 d2 : Dom) : Prop :=
  d1.serversCount.isSome = d2.serversCount.isSome
    ∧ d1.usersCount.isSome = d2.usersCount.isSome
    ∧ d1.threatsBlocked.isSome = d2.threatsBlocked.isSome
    ∧ d1.scansCount.isSome = d2.scansCount.isSome
    ∧ d1.threatsTable.isSome = d2.threatsTable.isSome
    ∧ d1.protectionStatus.isSome = d2.protectionStatus.isSome
    ∧ d1.protectionLevel.isSome = d2.protectionLevel.isSome
    ∧ d1.enabledFeatures.isSome = d2.enabledFeatures.isSome

instance (d1 d2 : Dom) : Decidable (Dom.sameElements d1 d2) := by
  unfold Dom.sameElements; infer_instance

/-- The elements of the region of `op` are all on the page. -/
def Dom.hasRegion (op : Op) (d : Dom) : Bool :=
  match op with
  | .stats =>
    d.serversCount.isSome && d.usersCount.isSome && d.threatsBlocked.isSome
      && d.scansCount.isSome
  | .threats => d.threatsTable.isSome
  | .protection =>
    d.protectionStatus.isSome && d.protectionLevel.isSome && d.enabledFeatures.isSome

/-- A relation between the page before and the page after that holds when
nothing happens and composes over consecutive statements. -/
structure FrameRel (R : Dom → Dom → Prop) : Prop where
  refl : ∀ d, R d d
  trans : ∀ a b c, R a b → R b c → R a c

/-- The block `m`, whatever it returns or throws, leaves the page related by `R`
to the page it started on. -/
def Js.Keeps {α : Type} (R : Dom → Dom → Prop) (m : Js α) : Prop :=
  ∀ w : World, R w.dom (m w).2.dom

/-- The block `m` reads and writes the page only through what `E` compares: run on
two worlds whose pages are `E`-related it returns or throws the same and leaves
`E`-related pages. -/
def Js.Local {α : Type} (E : Dom → Dom → Prop) (m : Js α) : Prop :=
  ∀ w1 w2 : World, E w1.dom w2.dom → (m w1).1 = (m w2).1 ∧ E (m w1).2.dom (m w2).2.dom

/-! ## The startup handler and its timer (dashboard.js, lines 89-94) -/

/-- A timer registered with `setInterval(updateAllData, period)`. The handler drops
the id `setInterval` returns and dashboard.js holds no `clearInterval`, so such a
timer is never cancelled. `due` is the time of its next firing. -/
structure Interval where
  period : Nat
  due : Nat
  deriving DecidableEq, Repr

/-- What the endpoints do, cycle by cycle: outcomes and arrival order of the
`k`-th invocation of `updateAllData`. -/
structure Traffic where
  outcome : Nat → Op → FetchOutcome
  order : Nat → List Op

/-- The dashboard in time. `now` counts milliseconds since the startup event,
`calls` lists the times at which `updateAllData` was invoked, oldest first. -/
structure Page where
  now : Nat
  intervals : List Interval
  calls : List Nat
  world : World

/-- One invocation of `updateAllData`, recorded with its time. The cycle it starts
is run to its end at once: when its responses arrive has no bearing on the timer. -/
def invokeUpdateAllData (H : Host) (T : Traffic) (p : Page) : Page :=
  { p with
    calls := p.calls ++ [p.now]
    world := (updateAllData H (T.outcome p.calls.length) (T.order p.calls.length) p.world).2 }

/-- Call `setInterval(updateAllData, period)`: first firing one period from now. -/
def setInterval (period : Nat) (p : Page) : Page :=
  { p with intervals := p.intervals ++ [{ period := period, due := p.now + period }] }

/-- The `DOMContentLoaded` listener: `updateAllData()` and then
`setInterval(updateAllData, 30000)`. -/
def onDOMContentLoaded (H : Host) (T : Traffic) (p : Page) : Page :=
  setInterval 30000 (invokeUpdateAllData H T p)

/-- The host runs every timer that is due now: its callback is invoked and the
timer is armed again one period later. -/
def fireDue (H : Host) (T : Traffic) (p : Page) : Page :=
  let rearmed : List Interval := p.intervals.map
    (fun iv => if iv.due = p.now then { iv with due := iv.due + iv.period } else iv)
  p.intervals.foldl
    (fun q iv => if iv.due = p.now then invokeUpdateAllData H T q else q)
    { p with intervals := rearmed }

/-- One millisecond passes. -/
def elapse (H : Host) (T : Traffic) (p : Page) : Page :=
  fireDue H T { p with now := p.now + 1 }

/-- The page `t` milliseconds later. -/
def runFor (H : Host) (T : Traffic) : Nat → Page → Page
  | 0, p => p
  | t + 1, p => runFor H T t (elapse H T p)

/-- The page as the startup event finds it: time zero, no timer, no call yet. -/
def startPage (w : World) : Page :=
  { now := 0, intervals := [], calls := [], world := w }

/-! ## `animateCounter` (script.js, lines 339-357) -/

/-- Units in one: every finite double is a whole number of units of 2^-1074, and a
number is held as its count of units. -/
def unitsPerOne : Nat := 2 ^ 1074

/-- The double nearest to the quotient of a count of units `a` by a positive whole
number `q`, ties to even, as a count of units. -/
def nearestUnits (a : Int) (q : Nat) : Int :=
  if a < 0 then -((round53 a.natAbs q : Nat) : Int) else ((round53 a.natAbs q : Nat) : Int)

/-- Quotient `a / n` of a number by a positive whole number that a double holds
exactly, `none` standing for `NaN`. -/
def numDiv (a : Option Int) (n : Nat) : Option Int :=
  a.map (fun x => nearestUnits x n)

/-- Sum `a + b` of two numbers, rounded to a double; `none` stands for `NaN`. -/
def numAdd (a b : Option Int) : Option Int :=
  match a, b with
  | some x, some y => some (nearestUnits (x + y) 1)
  | _, _ => none

/-- Comparison `a >= b`; false as soon as one side is `NaN`. -/
def numGe (a b : Option Int) : Bool :=
  match a, b with
  | some x, some y => decide (y ≤ x)
  | _, _ => false

/-- Text of `Math.floor(a)` as `textContent` receives it: the decimal digits of the
whole part, rounded down. -/
def floorText (a : Option Int) : String :=
  match a with
  | some x => toString (x / (unitsPerOne : Int))
  | none => "NaN"

/-- The variables one call of `animateCounter` leaves to its timer callback, each a
double counted in units of 2^-1074 (`none` for `NaN`), and whether the timer is
still registered. -/
structure CounterTimer where
  target : Option Int
  increment : Option Int
  current : Option Int
  live : Bool
  deriving DecidableEq

/-- A `.stat-number` element: whether it carries `data-animated`, what `parseInt`
makes of its `data-target` where that is an integer of magnitude at most 2^53
(`none` for `NaN`), its text, and the timer `animateCounter` started on it, if any. -/
structure CounterElem where
  animated : Bool
  dataTarget : Option SafeInt
  textContent : String
  timer : Option CounterTimer
  deriving DecidableEq

/-- Source `animateCounter` (script.js, lines 339-357) up to the registration of
the timer: nothing on an element already marked; else the closure variables
`target`, `increment = target / (duration / 16)` with `duration / 16 = 125` exact,
`current = 0`, a live 16 ms timer, and the mark `data-animated`. -/
def animateCounter (el : CounterElem) : CounterElem :=
  if el.animated then el
  else
    let target : Option Int := el.dataTarget.map (fun n => n.val * (unitsPerOne : Int))
    let duration : Nat := 2000
    let increment : Option Int := numDiv target (duration / 16)
    { el with
      timer := some { target := target, increment := increment, current := some 0, live := true }
      animated := true }

/-- One firing of the timer callback (lines 347-353); a cleared timer fires no more. -/
def tick (el : CounterElem) : CounterElem :=
  match el.timer with
  | none => el
  | some tm =>
    if tm.live then
      let stepped := numAdd tm.current tm.increment
      let stop := numGe stepped tm.target
      let current := if stop then tm.target else stepped
      { el with
        timer := some { tm with current := current, live := !stop }
        textContent := floorText current }
    else el

/-- The element after `k` firings. -/
def ticks : Nat → CounterElem → CounterElem
  | 0, el => el
  | k + 1, el => tick (ticks k el)

/-- The running sum after `k` additions of `inc` units, each sum rounded to a double. -/
def runningSum (inc : Nat) : Nat → Nat
  | 0 => 0
  | k + 1 => round53 (runningSum inc k + inc) 1

/-- The firing at which the running sum of a target of `T` first reaches it: firing
1 for a target of zero, else firing 125 if the sum is there by then, else 126. -/
def stopTick (T : Nat) : Nat :=
  if T = 0 then 1
  else if T * unitsPerOne ≤ runningSum (round53 (T * unitsPerOne) 125) 125 then 125
  else 126

/-! ## Sample data for the concrete checks -/

/-- A host for concrete checks: dates shown by `ToString`, members by their name. -/
def sampleHost : Host :=
  { localeDate := fun v => (v.toJsString.toOption).getD ""
    memberText := fun key => "function " ++ key
    numberText := fun n => toString n }

/-- A page with every element present and already filled by an earlier refresh. -/
def samplePage : Dom :=
  { serversCount := some "12"
    usersCount := some "340"
    threatsBlocked := some "7"
    scansCount := some "95"
    threatsTable := some [{ className := "table-row hover:bg-gray-50", innerHTML := "old" }]
    protectionStatus := some { textContent := "نشط", className := "text-lg font-semibold text-green-600" }
    protectionLevel := some "high"
    enabledFeatures := some "<li class=\"feature-list-item\">anti-spam</li>" }

/-- The sample page with an empty console. -/
def sampleWorld : World := { dom := samplePage, console := [] }

/-- Two threat records, as /recent-threats sends them. -/
def sampleThreats : List JsVal :=
  [.obj [("type", .str "spam"), ("severity", .str "عالي"), ("timestamp", .str "2024-05-01T10:00:00Z")],
   .obj [("type", .str "raid"), ("severity", .str "unknown"), ("timestamp", .str "2024-05-01T09:00:00Z")]]

/-- A threat record whose severity is the text `constructor`. -/
def oddThreat : JsVal :=
  .obj [("type", .str "spam"), ("severity", .str "constructor"),
        ("timestamp", .str "2024-05-01T10:00:00Z")]

/-- A well-formed /protection-status body with two features. -/
def sampleStatus : List (String × JsVal) :=
  [("status", .str "نشط"), ("level", .str "high"),
   ("features_enabled", .arr [.str "anti-spam", .str "anti-raid"])]

/-- A JSON error document, as a server sends with status 500. -/
def errorBody : JsVal := .obj [("error", .str "Internal Server Error")]

/-- One cycle in which /stats fails on the network while the two other endpoints
answer well-formed bodies. -/
def statsDown : Op → FetchOutcome
  | .stats => .failed
  | .threats => .responded ⟨200, some (.arr sampleThreats)⟩
  | .protection => .responded ⟨200, some (.obj sampleStatus)⟩

/-- A /stats body with four small counts. -/
def laterStats : List (String × JsVal) :=
  [("servers", .num ⟨5, by decide⟩), ("users", .num ⟨6, by decide⟩),
   ("threats_blocked", .num ⟨7, by decide⟩), ("scans_performed", .num ⟨8, by decide⟩)]

/-- A /stats body whose `servers` field is an object with a `toString` member, which
does not convert to text. -/
def brokenStats : List (String × JsVal) :=
  [("servers", .obj [("toString", .null)]), ("users", .num ⟨2, by decide⟩),
   ("threats_blocked", .num ⟨3, by decide⟩), ("scans_performed", .num ⟨4, by decide⟩)]

/-- A /protection-status body of a stopped protection with no feature. -/
def stoppedStatus : List (String × JsVal) :=
  [("status", .str "متوقف"), ("level", .str "low"), ("features_enabled", .arr [])]

/-- A page with every element present and nothing shown yet. -/
def blankWorld : World :=
  { dom :=
      { serversCount := some ""
        usersCount := some ""
        threatsBlocked := some ""
        scansCount := some ""
        threatsTable := some []
        protectionStatus := some { textContent := "", className := "" }
        protectionLevel := some ""
        enabledFeatures := some "" }
    console := [] }

/-- A counter element not yet animated, with `data-target="25"` and text `0`. -/
def sampleCounter : CounterElem :=
  { animated := false, dataTarget := some ⟨25, by decide⟩, textContent := "0", timer := none }

/-! ## Unfolding lemmas -/

@[simp] theorem Js.bind_eq {α β : Type} (m : Js α) (f : α → Js β) : (m >>= f) = Js.seq m f := rfl

@[simp] theorem Js.pure_eq {α : Type} (a : α) : (pure a : Js α) = Js.ret a := rfl

@[simp] theorem Js.seq_ret {α β : Type} (a : α) (f : α → Js β) (w : World) :
    Js.seq (Js.ret a) f w = f a w := rfl

@[simp] theorem Js.seq_eval_ok {α β : Type} (a : α) (f : α → Js β) (w : World) :
    Js.seq (Js.eval (.ok a)) f w = f a w := rfl

@[simp] theorem Js.seq_eval_error {α β : Type} (e : JsError) (f : α → Js β) (w : World) :
    Js.seq (Js.eval (.error e)) f w = (.error e, w) := rfl

/-- Whatever the body does, a `try` whose handler only logs makes the promise fulfil. -/
theorem runAsync_tryCatch_fulfilled (body : Js Unit) (context : String) (w : World) :
    (runAsync (tryCatch body (consoleError context)) w).1 = .fulfilled := by
  unfold runAsync tryCatch
  cases h : body w with
  | mk r w1 => cases r <;> simp [consoleError]

/-- `ToString` of a primitive does not throw. -/
theorem toJsString_primitive (v : JsVal) (h : v.isPrimitive = true) :
    ∃ text, v.toJsString = .ok text := by
  cases v with
  | bool b => cases b <;> exact ⟨_, rfl⟩
  | arr items => simp [JsVal.isPrimitive] at h
  | obj props => simp [JsVal.isPrimitive] at h
  | _ => exact ⟨_, rfl⟩

/-- Conversion of a primitive to a DOMString does not throw. -/
theorem toDomString_primitive (v : JsVal) (h : v.isPrimitive = true) :
    ∃ text, v.toDomString = .ok text := by
  cases v with
  | bool b => cases b <;> exact ⟨_, rfl⟩
  | arr items => simp [JsVal.isPrimitive] at h
  | obj props => simp [JsVal.isPrimitive] at h
  | _ => exact ⟨_, rfl⟩

/-! ## C1 -/

/-- A number below 2^53 keeps all its bits. -/
theorem excessBits_small (fuel a : Nat) (h : a < 9007199254740992) :
    excessBits fuel a = 0 := by
  cases fuel with
  | zero => rfl
  | succ n => simp [excessBits, h]

/-- A natural number up to 2^53 is a double: rounding leaves it as it is. -/
theorem round53_safe (a : Nat) (h : a ≤ 9007199254740992) : round53 a 1 = a := by
  rcases Nat.lt_or_ge a 9007199254740992 with hlt | hge
  · have hs : excessBits a a = 0 := excessBits_small _ _ hlt
    simp [round53, hs, roundDiv, Nat.mod_one]
  · have ha : a = 9007199254740992 := Nat.le_antisymm h hge
    subst ha
    decide

/-- An integer of magnitude at most 2^53 is its own nearest double. -/
theorem nearestDouble_safe (n : Int) (h : n.natAbs ≤ 9007199254740992) :
    nearestDouble n = n := by
  cases n with
  | ofNat a =>
    have ha : a ≤ 9007199254740992 := by simpa using h
    simp [nearestDouble, round53_safe a ha]
  | negSucc a =>
    have ha : a + 1 ≤ 9007199254740992 := by simpa [Int.natAbs] using h
    simp [nearestDouble, round53_safe (a + 1) ha, Int.negSucc_eq]

/-- `JSON.parse` holds an integer literal of magnitude at most 2^53 exactly. -/
theorem ofJsonInteger_safe (H : Host) (n : Int) (h : n.natAbs ≤ 9007199254740992) :
    JsVal.ofJsonInteger H n = .num ⟨n, h⟩ := by
  have hn := nearestDouble_safe n h
  simp [JsVal.ofJsonInteger, hn, h]

/-- C1 as stated fails: a double does not hold every integer. The body field
`servers` written 9007199254740993 (2^53 + 1) is parsed to the nearest double,
2^53, and the slot shows 9007199254740992, not the field of the response. -/
theorem updateStats_rounds_large_integer :
    nearestDouble 9007199254740993 = 9007199254740992
    ∧ (JsVal.ofJsonInteger sampleHost 9007199254740993).toJsString = .ok "9007199254740992"
    ∧ (updateStats (.responded ⟨200, some (.obj
          [("servers", JsVal.ofJsonInteger sampleHost 9007199254740993),
           ("users", JsVal.ofJsonInteger sampleHost 41),
           ("threats_blocked", JsVal.ofJsonInteger sampleHost 7),
           ("scans_performed", JsVal.ofJsonInteger sampleHost 120)])⟩)
        sampleWorld).2.dom.serversCount = some "9007199254740992"
    ∧ toString (9007199254740993 : Int) = "9007199254740993"
    ∧ (updateStats (.responded ⟨200, some (.obj
          [("servers", JsVal.ofJsonInteger sampleHost 9007199254740993),
           ("users", JsVal.ofJsonInteger sampleHost 41),
           ("threats_blocked", JsVal.ofJsonInteger sampleHost 7),
           ("scans_performed", JsVal.ofJsonInteger sampleHost 120)])⟩)
        sampleWorld).2.dom.serversCount ≠ some (toString (9007199254740993 : Int)) := by
  decide

/-- C1, amended: for every /stats response (of any HTTP status) whose JSON body is
an object with integer fields `servers`, `users`, `threats_blocked` and
`scans_performed` of magnitude at most 2^53, on a page where the four slot elements
are present, after `updateStats` the text of `servers-count`, `users-count`,
`threats-blocked` and `scans-count` is the decimal text of the corresponding field,
not otherwise transformed. -/
theorem updateStats_shows_fields (H : Host) (w : World) (st : Nat)
    (props : List (String × JsVal)) (a b c d : Int)
    (ha : a.natAbs ≤ 9007199254740992) (hb : b.natAbs ≤ 9007199254740992)
    (hc : c.natAbs ≤ 9007199254740992) (hd : d.natAbs ≤ 9007199254740992)
    (hsa : props.lookup "servers" = some (JsVal.ofJsonInteger H a))
    (hsb : props.lookup "users" = some (JsVal.ofJsonInteger H b))
    (hsc : props.lookup "threats_blocked" = some (JsVal.ofJsonInteger H c))
    (hsd : props.lookup "scans_performed" = some (JsVal.ofJsonInteger H d))
    (h1 : w.dom.serversCount ≠ none) (h2 : w.dom.usersCount ≠ none)
    (h3 : w.dom.threatsBlocked ≠ none) (h4 : w.dom.scansCount ≠ none) :
    (updateStats (.responded ⟨st, some (.obj props)⟩) w).2.dom.serversCount
        = some (toString a)
    ∧ (updateStats (.responded ⟨st, some (.obj props)⟩) w).2.dom.usersCount
        = some (toString b)
    ∧ (updateStats (.responded ⟨st, some (.obj props)⟩) w).2.dom.threatsBlocked
        = some (toString c)
    ∧ (updateStats (.responded ⟨st, some (.obj props)⟩) w).2.dom.scansCount
        = some (toString d) := by
  rw [ofJsonInteger_safe H a ha] at hsa
  rw [ofJsonInteger_safe H b hb] at hsb
  rw [ofJsonInteger_safe H c hc] at hsc
  rw [ofJsonInteger_safe H d hd] at hsd
  obtain ⟨dom, con⟩ := w
  obtain ⟨s1, s2, s3, s4, tb, ps, pl, ef⟩ := dom
  cases s1 with
  | none => exact absurd rfl h1
  | some t1 =>
  cases s2 with
  | none => exact absurd rfl h2
  | some t2 =>
  cases s3 with
  | none => exact absurd rfl h3
  | some t3 =>
  cases s4 with
  | none => exact absurd rfl h4
  | some t4 =>
    simp [updateStats, runAsync, tryCatch, awaitFetch, awaitJson, JsVal.getProp, hsa, hsb, hsc,
      hsd, assignText, Dom.text, Dom.setText, Js.seq, Js.ret, Js.eval, JsVal.toDomString,
      JsVal.toJsString]

/-- C1 amended, at a concrete response: 3 servers, 41 users, 7 threats blocked,
120 scans, written over the texts 12, 340, 7 and 95. -/
theorem updateStats_shows_fields_witness :
    (updateStats (.responded ⟨200, some (.obj
        [("servers", JsVal.ofJsonInteger sampleHost 3),
         ("users", JsVal.ofJsonInteger sampleHost 41),
         ("threats_blocked", JsVal.ofJsonInteger sampleHost 7),
         ("scans_performed", JsVal.ofJsonInteger sampleHost 120)])⟩)
      sampleWorld).2.dom.serversCount = some "3"
    ∧ (updateStats (.responded ⟨200, some (.obj
        [("servers", JsVal.ofJsonInteger sampleHost 3),
         ("users", JsVal.ofJsonInteger sampleHost 41),
         ("threats_blocked", JsVal.ofJsonInteger sampleHost 7),
         ("scans_performed", JsVal.ofJsonInteger sampleHost 120)])⟩)
      sampleWorld).2.dom.usersCount = some "41"
    ∧ (updateStats (.responded ⟨200, some (.obj
        [("servers", JsVal.ofJsonInteger sampleHost 3),
         ("users", JsVal.ofJsonInteger sampleHost 41),
         ("threats_blocked", JsVal.ofJsonInteger sampleHost 7),
         ("scans_performed", JsVal.ofJsonInteger sampleHost 120)])⟩)
      sampleWorld).2.dom.threatsBlocked = some "7"
    ∧ (updateStats (.responded ⟨200, some (.obj
        [("servers", JsVal.ofJsonInteger sampleHost 3),
         ("users", JsVal.ofJsonInteger sampleHost 41),
         ("threats_blocked", JsVal.ofJsonInteger sampleHost 7),
         ("scans_performed", JsVal.ofJsonInteger sampleHost 120)])⟩)
      sampleWorld).2.dom.scansCount = some "120" :=
  updateStats_shows_fields sampleHost sampleWorld 200 _ 3 41 7 120 (by decide) (by decide)
    (by decide) (by decide) rfl rfl rfl rfl (by decide) (by decide) (by decide) (by decide)

/-! ## C2 -/

/-- A severity that converts to a string gets a style. -/
theorem severityClass_ok (v : JsVal) (key : String) (h : v.toJsString = .ok key) :
    ∃ style, severityClass v = .ok style := by
  unfold severityClass
  rw [h]
  dsimp only
  split
  · exact ⟨_, rfl⟩
  · split <;> exact ⟨_, rfl⟩

/-- A threat record with primitive fields always renders. -/
theorem renderRow_record (H : Host) (t : JsVal) (h : t.isThreatRecord = true) :
    ∃ row, renderRow H t = .ok row := by
  cases t with
  | obj props =>
    simp only [JsVal.isThreatRecord, Bool.and_eq_true] at h
    obtain ⟨⟨h1, h2⟩, h3⟩ := h
    obtain ⟨ty, hty⟩ := toJsString_primitive _ h1
    obtain ⟨sev, hsev⟩ := toJsString_primitive _ h2
    obtain ⟨ts, hts⟩ := toJsString_primitive _ h3
    obtain ⟨style, hstyle⟩ := severityClass_ok _ sev hsev
    simp only [renderRow, JsVal.getProp, bind, Except.bind, pure, Except.pure, hstyle, hty, hsev,
      localeDateText, hts]
    exact ⟨_, rfl⟩
  | _ => simp [JsVal.isThreatRecord] at h

/-- The loop over records appends their rows, in order, to the rows already there,
and touches nothing else. -/
theorem forEachItem_records (H : Host) (threats : List JsVal)
    (hrec : ∀ t ∈ threats, t.isThreatRecord = true) :
    ∀ (dom : Dom) (con : List LogEntry) (acc : List Row), dom.threatsTable = some acc →
      ∃ rows, List.Forall₂ (fun t r => renderRow H t = .ok r) threats rows ∧
        forEachItem (addThreatRow H) threats ⟨dom, con⟩
          = (.ok (), ⟨{ dom with threatsTable := some (acc ++ rows) }, con⟩) := by
  induction threats with
  | nil =>
    intro dom con acc hacc
    refine ⟨[], List.Forall₂.nil, ?_⟩
    simp [forEachItem, Js.ret, ← hacc]
  | cons t rest ih =>
    intro dom con acc hacc
    obtain ⟨row, hrow⟩ := renderRow_record H t (hrec t (List.mem_cons_self _ _))
    have hrest : ∀ u ∈ rest, u.isThreatRecord = true :=
      fun u hu => hrec u (List.mem_cons_of_mem _ hu)
    obtain ⟨rows, hrows, hrun⟩ :=
      ih hrest { dom with threatsTable := some (acc ++ [row]) } con (acc ++ [row]) rfl
    refine ⟨row :: rows, List.Forall₂.cons hrow hrows, ?_⟩
    simp [forEachItem, addThreatRow, hrow, appendRow, hacc, Js.seq, Js.eval] at hrun ⊢
    simpa using hrun

/-- C2: for every /recent-threats response that is a sequence of N threat records
(objects whose `type`, `severity` and `timestamp` are primitives), and for every
prior content of the table, after `updateRecentThreats` the table holds exactly N
rows and, for every i, the i-th row is the row rendered from the i-th record:
response order, nothing dropped, nothing kept from before. -/
theorem updateRecentThreats_rows (H : Host) (w : World) (st : Nat) (threats : List JsVal)
    (prior : List Row)
    (hrec : ∀ t ∈ threats, t.isThreatRecord = true)
    (htab : w.dom.threatsTable = some prior) :
    ∃ rows, (updateRecentThreats H (.responded ⟨st, some (.arr threats)⟩) w).2.dom.threatsTable
        = some rows
      ∧ rows.length = threats.length
      ∧ ∀ i (hi : i < threats.length),
          ∃ row, renderRow H (threats.get ⟨i, hi⟩) = .ok row ∧ rows[i]? = some row := by
  obtain ⟨dom, con⟩ := w
  obtain ⟨rows, hrows, hrun⟩ :=
    forEachItem_records H threats hrec { dom with threatsTable := some [] } con [] rfl
  simp only [] at htab
  refine ⟨rows, ?_, hrows.length_eq.symm, ?_⟩
  · simp [updateRecentThreats, runAsync, tryCatch, awaitFetch, awaitJson, clearTable, htab,
      callForEach, Js.seq, Js.ret, hrun]
  · intro i hi
    have hi2 : i < rows.length := hrows.length_eq ▸ hi
    refine ⟨rows.get ⟨i, hi2⟩, ?_, ?_⟩
    · exact List.Forall₂.get hrows hi hi2
    · simp [List.getElem?_eq_getElem hi2]

/-- C2 at a concrete response of two records, over a table that held one old row. -/
theorem updateRecentThreats_rows_witness :
    (∀ t ∈ sampleThreats, t.isThreatRecord = true)
    ∧ sampleWorld.dom.threatsTable
        = some [{ className := "table-row hover:bg-gray-50", innerHTML := "old" }]
    ∧ ∃ rows, (updateRecentThreats sampleHost (.responded ⟨200, some (.arr sampleThreats)⟩)
          sampleWorld).2.dom.threatsTable = some rows
      ∧ rows.length = sampleThreats.length
      ∧ ∀ i (hi : i < sampleThreats.length),
          ∃ row, renderRow sampleHost (sampleThreats.get ⟨i, hi⟩) = .ok row
            ∧ rows[i]? = some row :=
  have hrec : ∀ t ∈ sampleThreats, t.isThreatRecord = true := by
    intro t ht
    simp only [sampleThreats, List.mem_cons, List.mem_singleton, List.not_mem_nil, or_false] at ht
    rcases ht with rfl | rfl <;> rfl
  ⟨hrec, rfl, updateRecentThreats_rows sampleHost sampleWorld 200 sampleThreats _ hrec rfl⟩

/-! ## C3 -/

/-- C3, the code at a severity named like a member of `Object.prototype`: for the
severity text `constructor` the literal's lookup finds the inherited member, which
is truthy, so `severityClass` is that member and not the fallback class; the row
built from such a record carries the member's text where the class belongs. The
three table entries and an unrelated text behave as the table says. -/
theorem severityClass_inherited_member :
    severityClass (.str "constructor") = .ok (.inherited "constructor")
    ∧ severityClass (.str "constructor") ≠ .ok (.cls "bg-gray-100 text-gray-800")
    ∧ (renderRow sampleHost oddThreat).toOption.map Row.innerHTML
        = some ("\n                <td class=\"px-6 py-4\">spam</td>\n                <td class=\"px-6 py-4\">\n                    <span class=\"px-2 py-1 rounded-full "
          ++ sampleHost.memberText "constructor"
          ++ "\">\n                        constructor\n                    </span>\n                </td>\n                <td class=\"px-6 py-4\">2024-05-01T10:00:00Z</td>\n                <td class=\"px-6 py-4\">\n                    <button class=\"text-blue-600 hover:text-blue-800 transition-colors duration-200\">\n                        التفاصيل\n                    </button>\n                </td>\n            ")
    ∧ severityClass (.str "عالي") = .ok (.cls "bg-red-100 text-red-800")
    ∧ severityClass (.str "متوسط") = .ok (.cls "bg-yellow-100 text-yellow-800")
    ∧ severityClass (.str "منخفض") = .ok (.cls "bg-green-100 text-green-800")
    ∧ severityClass (.str "unknown") = .ok (.cls "bg-gray-100 text-gray-800") := by
  refine ⟨by decide, by decide, ?_, by decide, by decide, by decide, by decide⟩
  set_option maxRecDepth 20000 in decide

/-! ## C4 and C5 -/

/-- Features that are all primitives all interpolate. -/
theorem featureItems_primitive (items : List JsVal)
    (h : items.all JsVal.isPrimitive = true) :
    ∃ texts, featureItems items = .ok texts := by
  induction items with
  | nil => exact ⟨[], rfl⟩
  | cons f rest ih =>
    simp only [List.all_cons, Bool.and_eq_true] at h
    obtain ⟨text, htext⟩ := toJsString_primitive f h.1
    obtain ⟨texts, htexts⟩ := ih h.2
    simp only [featureItems, featureItem, htext, htexts]
    exact ⟨_, rfl⟩

/-- Text labels interpolate to their list items, one per label, in order. -/
theorem featureItems_labels (labels : List String) :
    featureItems (labels.map JsVal.str)
      = .ok (labels.map (fun x => "<li class=\"feature-list-item\">" ++ x ++ "</li>")) := by
  induction labels with
  | nil => rfl
  | cons x rest ih =>
    simp only [List.map_cons, featureItems, featureItem, JsVal.toJsString, ih]

/-- The world `updateProtectionStatus` leaves when the body is an object whose
`status` and `level` convert to text and whose `features_enabled` is an array of
items that interpolate, the three elements being present: all four writes are made
and nothing is logged. -/
theorem updateProtectionStatus_rendered (dom : Dom) (con : List LogEntry) (st : Nat)
    (props : List (String × JsVal)) (items : List JsVal) (el : StatusElem) (lv ft : String)
    (stext ltext : String) (texts : List String)
    (hfeat : props.lookup "features_enabled" = some (.arr items))
    (hs : ((props.lookup "status").getD .undefined).toDomString = .ok stext)
    (hl : ((props.lookup "level").getD .undefined).toDomString = .ok ltext)
    (hitems : featureItems items = .ok texts)
    (h1 : dom.protectionStatus = some el) (h2 : dom.protectionLevel = some lv)
    (h3 : dom.enabledFeatures = some ft) :
    updateProtectionStatus (.responded ⟨st, some (.obj props)⟩) ⟨dom, con⟩
      = (.fulfilled,
          ⟨{ dom with
              protectionStatus := some
                { textContent := stext
                  className := statusClass ((props.lookup "status").getD .undefined) }
              protectionLevel := some ltext
              enabledFeatures := some (String.join texts) }, con⟩) := by
  simp [updateProtectionStatus, runAsync, tryCatch, awaitFetch, awaitJson, JsVal.getProp, hfeat,
    assignStatusText, assignText, assignFeatures, assignStatusClass, featuresMarkup, Dom.text,
    Dom.setText, Js.seq, Js.ret, Js.eval, h1, h2, h3, hs, hl, hitems]

/-- What a well-formed status body gives the conversions. -/
theorem isStatusBody_converts (props : List (String × JsVal))
    (h : isStatusBody props = true) :
    ∃ (items : List JsVal) (stext ltext : String) (texts : List String),
      props.lookup "features_enabled" = some (.arr items)
      ∧ ((props.lookup "status").getD .undefined).toDomString = .ok stext
      ∧ ((props.lookup "level").getD .undefined).toDomString = .ok ltext
      ∧ featureItems items = .ok texts := by
  simp only [isStatusBody, Bool.and_eq_true] at h
  obtain ⟨⟨hs, hl⟩, hf⟩ := h
  obtain ⟨stext, hstext⟩ := toDomString_primitive _ hs
  obtain ⟨ltext, hltext⟩ := toDomString_primitive _ hl
  cases hlook : props.lookup "features_enabled" with
  | none => simp [hlook] at hf
  | some v =>
    cases v with
    | arr items =>
      rw [hlook] at hf
      obtain ⟨texts, htexts⟩ := featureItems_primitive items hf
      exact ⟨items, stext, ltext, texts, rfl, hstext, hltext, htexts⟩
    | _ => simp [hlook] at hf

/-- The class is the positive one exactly for the active status text. -/
theorem statusClass_eq_positive_iff (status : JsVal) :
    statusClass status = "text-lg font-semibold text-green-600" ↔ status = .str "نشط" := by
  have hne : ("text-lg font-semibold text-red-600" : String)
      ≠ "text-lg font-semibold text-green-600" := by decide
  cases status <;> simp [statusClass, JsVal.strictEqStr, hne]

/-- Any other status gets the negative class. -/
theorem statusClass_eq_negative (status : JsVal) (h : status ≠ .str "نشط") :
    statusClass status = "text-lg font-semibold text-red-600" := by
  cases status <;> simp_all [statusClass, JsVal.strictEqStr]

/-- C4: for every /protection-status response that renders (a JSON object whose
`status` and `level` are primitives and whose `features_enabled` is an array of
primitives, on a page holding the three elements), the class
`updateProtectionStatus` sets on `protection-status` is the positive class
`text-lg font-semibold text-green-600` if and only if the response's `status` is the
text `نشط`, and the negative class `text-lg font-semibold text-red-600` for every
other value; rendering the same response again leaves the same class. -/
theorem updateProtectionStatus_style (w : World) (st : Nat) (props : List (String × JsVal))
    (status : JsVal)
    (hstatus : (JsVal.obj props).getProp "status" = .ok status)
    (hbody : isStatusBody props = true)
    (h1 : w.dom.protectionStatus ≠ none) (h2 : w.dom.protectionLevel ≠ none)
    (h3 : w.dom.enabledFeatures ≠ none) :
    ∃ el, (updateProtectionStatus (.responded ⟨st, some (.obj props)⟩) w).2.dom.protectionStatus
        = some el
      ∧ (el.className = "text-lg font-semibold text-green-600" ↔ status = .str "نشط")
      ∧ (status ≠ .str "نشط" → el.className = "text-lg font-semibold text-red-600")
      ∧ ∃ el2, (updateProtectionStatus (.responded ⟨st, some (.obj props)⟩)
            (updateProtectionStatus (.responded ⟨st, some (.obj props)⟩) w).2).2.dom.protectionStatus
          = some el2 ∧ el2.className = el.className := by
  obtain ⟨dom, con⟩ := w
  obtain ⟨el, hel⟩ := Option.ne_none_iff_exists'.mp h1
  obtain ⟨lv, hlv⟩ := Option.ne_none_iff_exists'.mp h2
  obtain ⟨ft, hft⟩ := Option.ne_none_iff_exists'.mp h3
  obtain ⟨items, stext, ltext, texts, hfeat, hs, hl, hitems⟩ := isStatusBody_converts props hbody
  have hst : (props.lookup "status").getD .undefined = status := by
    simpa [JsVal.getProp] using hstatus
  rw [updateProtectionStatus_rendered dom con st props items el lv ft stext ltext texts hfeat hs
    hl hitems hel hlv hft]
  rw [updateProtectionStatus_rendered _ con st props items _ _ _ stext ltext texts hfeat hs hl
    hitems rfl rfl rfl]
  simp only [hst]
  exact ⟨_, rfl, statusClass_eq_positive_iff status, statusClass_eq_negative status, _, rfl, rfl⟩

/-- C4 at the sample page with an active response. -/
theorem updateProtectionStatus_style_witness :
    ∃ el, (updateProtectionStatus (.responded ⟨200, some (.obj sampleStatus)⟩)
        sampleWorld).2.dom.protectionStatus = some el
      ∧ (el.className = "text-lg font-semibold text-green-600" ↔ JsVal.str "نشط" = .str "نشط")
      ∧ (JsVal.str "نشط" ≠ .str "نشط" → el.className = "text-lg font-semibold text-red-600")
      ∧ ∃ el2, (updateProtectionStatus (.responded ⟨200, some (.obj sampleStatus)⟩)
            (updateProtectionStatus (.responded ⟨200, some (.obj sampleStatus)⟩)
              sampleWorld).2).2.dom.protectionStatus
          = some el2 ∧ el2.className = el.className :=
  updateProtectionStatus_style sampleWorld 200 sampleStatus (.str "نشط")
    rfl rfl (by decide) (by decide) (by decide)

/-- C5 as stated fails: labels are interpolated unescaped, so the list is not made
of one item per label. The response with the single label
`a</li><li class="feature-list-item">b` and the response with the two labels `a`,
`b` write the same markup to `enabled-features`. The list the page then holds is
made from that markup alone, so whatever reading `items` of it one takes, it cannot
be the one item carrying the first response's label and also the two items
carrying the second response's labels. -/
theorem feature_labels_not_kept_apart :
    (updateProtectionStatus (.responded ⟨200, some (.obj
        [("status", .str "نشط"), ("level", .str "high"),
         ("features_enabled", .arr [.str "a</li><li class=\"feature-list-item\">b"])])⟩)
      sampleWorld).2.dom.enabledFeatures
      = some "<li class=\"feature-list-item\">a</li><li class=\"feature-list-item\">b</li>"
    ∧ (updateProtectionStatus (.responded ⟨200, some (.obj
        [("status", .str "نشط"), ("level", .str "high"),
         ("features_enabled", .arr [.str "a", .str "b"])])⟩)
      sampleWorld).2.dom.enabledFeatures
      = some "<li class=\"feature-list-item\">a</li><li class=\"feature-list-item\">b</li>"
    ∧ ∀ items : Option String → List String,
        ¬ (items (updateProtectionStatus (.responded ⟨200, some (.obj
              [("status", .str "نشط"), ("level", .str "high"),
               ("features_enabled", .arr [.str "a</li><li class=\"feature-list-item\">b"])])⟩)
            sampleWorld).2.dom.enabledFeatures
            = ["a</li><li class=\"feature-list-item\">b"]
          ∧ items (updateProtectionStatus (.responded ⟨200, some (.obj
              [("status", .str "نشط"), ("level", .str "high"),
               ("features_enabled", .arr [.str "a", .str "b"])])⟩)
            sampleWorld).2.dom.enabledFeatures
            = ["a", "b"]) := by
  have e1 : (updateProtectionStatus (.responded ⟨200, some (.obj
        [("status", .str "نشط"), ("level", .str "high"),
         ("features_enabled", .arr [.str "a</li><li class=\"feature-list-item\">b"])])⟩)
      sampleWorld).2.dom.enabledFeatures
      = some "<li class=\"feature-list-item\">a</li><li class=\"feature-list-item\">b</li>" := by
    decide
  have e2 : (updateProtectionStatus (.responded ⟨200, some (.obj
        [("status", .str "نشط"), ("level", .str "high"),
         ("features_enabled", .arr [.str "a", .str "b"])])⟩)
      sampleWorld).2.dom.enabledFeatures
      = some "<li class=\"feature-list-item\">a</li><li class=\"feature-list-item\">b</li>" := by
    decide
  refine ⟨e1, e2, ?_⟩
  intro items
  rw [e1, e2]
  rintro ⟨h1, h2⟩
  rw [h1] at h2
  exact absurd (congrArg List.length h2) (by decide)

/-- C5, amended: for every /protection-status response whose `status` and `level`
are texts and whose `features_enabled` is a sequence of N text labels, and for
every prior content of the panel, after `updateProtectionStatus` the markup written
to `enabled-features` is the in-order concatenation, with no separator, of the N
pieces `<li class="feature-list-item">` + label + `</li>`, the i-th made from the
i-th label (the empty markup when N = 0), and the status and level texts are the
response's `status` and `level`. -/
theorem updateProtectionStatus_features (w : World) (st : Nat) (props : List (String × JsVal))
    (s l : String) (labels : List String)
    (hs : props.lookup "status" = some (.str s))
    (hl : props.lookup "level" = some (.str l))
    (hfeat : props.lookup "features_enabled" = some (.arr (labels.map JsVal.str)))
    (h1 : w.dom.protectionStatus ≠ none) (h2 : w.dom.protectionLevel ≠ none)
    (h3 : w.dom.enabledFeatures ≠ none) :
    (∃ items : List String,
        items.length = labels.length
        ∧ (∀ i (hi : i < labels.length), items[i]?
            = some ("<li class=\"feature-list-item\">" ++ labels.get ⟨i, hi⟩ ++ "</li>"))
        ∧ (updateProtectionStatus (.responded ⟨st, some (.obj props)⟩) w).2.dom.enabledFeatures
            = some (String.join items))
    ∧ (labels = [] →
        (updateProtectionStatus (.responded ⟨st, some (.obj props)⟩) w).2.dom.enabledFeatures
          = some "")
    ∧ ((updateProtectionStatus (.responded ⟨st, some (.obj props)⟩) w).2.dom.protectionStatus.map
        StatusElem.textContent = some s)
    ∧ (updateProtectionStatus (.responded ⟨st, some (.obj props)⟩) w).2.dom.protectionLevel
        = some l := by
  obtain ⟨dom, con⟩ := w
  obtain ⟨el, hel⟩ := Option.ne_none_iff_exists'.mp h1
  obtain ⟨lv, hlv⟩ := Option.ne_none_iff_exists'.mp h2
  obtain ⟨ft, hft⟩ := Option.ne_none_iff_exists'.mp h3
  rw [updateProtectionStatus_rendered dom con st props _ el lv ft s l _ hfeat
    (by simp [hs, JsVal.toDomString, JsVal.toJsString])
    (by simp [hl, JsVal.toDomString, JsVal.toJsString])
    (featureItems_labels labels) hel hlv hft]
  refine ⟨⟨labels.map (fun x => "<li class=\"feature-list-item\">" ++ x ++ "</li>"), ?_, ?_, ?_⟩,
    ?_, ?_, ?_⟩
  · simp
  · intro i hi
    simp [List.getElem?_eq_getElem hi]
  · rfl
  · rintro rfl
    simp [String.join]
  · rfl
  · rfl

/-- C5 amended, at the sample page: two labels, over a list that held one old item. -/
theorem updateProtectionStatus_features_witness :
    (∃ items : List String,
        items.length = ["anti-spam", "anti-raid"].length
        ∧ (∀ i (hi : i < ["anti-spam", "anti-raid"].length), items[i]?
            = some ("<li class=\"feature-list-item\">" ++ ["anti-spam", "anti-raid"].get ⟨i, hi⟩
                ++ "</li>"))
        ∧ (updateProtectionStatus (.responded ⟨200, some (.obj sampleStatus)⟩)
            sampleWorld).2.dom.enabledFeatures = some (String.join items))
    ∧ (["anti-spam", "anti-raid"] = [] →
        (updateProtectionStatus (.responded ⟨200, some (.obj sampleStatus)⟩)
          sampleWorld).2.dom.enabledFeatures = some "")
    ∧ ((updateProtectionStatus (.responded ⟨200, some (.obj sampleStatus)⟩)
        sampleWorld).2.dom.protectionStatus.map StatusElem.textContent = some "نشط")
    ∧ (updateProtectionStatus (.responded ⟨200, some (.obj sampleStatus)⟩)
        sampleWorld).2.dom.protectionLevel = some "high" :=
  updateProtectionStatus_features sampleWorld 200 sampleStatus "نشط" "high"
    ["anti-spam", "anti-raid"] rfl rfl rfl (by decide) (by decide) (by decide)

/-! ## C6, C7, C8: what a failed refresh leaves on the page -/

/-- C6 as stated fails: a /stats response with HTTP status 500 and a JSON error
document as body is not treated as a failure. Every field read yields `undefined`,
so all four slots, which showed 12, 340, 7 and 95, are overwritten with the empty
text. -/
theorem updateStats_http_error_overwrites :
    Response.ok ⟨500, some errorBody⟩ = false
    ∧ sampleWorld.dom.serversCount = some "12"
    ∧ sampleWorld.dom.usersCount = some "340"
    ∧ sampleWorld.dom.threatsBlocked = some "7"
    ∧ sampleWorld.dom.scansCount = some "95"
    ∧ (updateStats (.responded ⟨500, some errorBody⟩) sampleWorld).2.dom.serversCount = some ""
    ∧ (updateStats (.responded ⟨500, some errorBody⟩) sampleWorld).2.dom.usersCount = some ""
    ∧ (updateStats (.responded ⟨500, some errorBody⟩) sampleWorld).2.dom.threatsBlocked = some ""
    ∧ (updateStats (.responded ⟨500, some errorBody⟩) sampleWorld).2.dom.scansCount = some ""
    ∧ (updateStats (.responded ⟨500, some errorBody⟩) sampleWorld).2.dom ≠ sampleWorld.dom := by
  decide

/-- C6, amended: for every prior page, when the /stats request fails on the
network, or the body of the response (of whatever HTTP status) is not valid JSON,
`updateStats` leaves the page, and so all four counter slots, exactly as it was. -/
theorem updateStats_failure_keeps_page (w : World) (o : FetchOutcome)
    (h : o = .failed ∨ ∃ st, o = .responded ⟨st, none⟩) :
    (updateStats o w).2.dom = w.dom := by
  rcases h with rfl | ⟨st, rfl⟩ <;> rfl

/-- C6 amended, at status 503 with a body that is not JSON. -/
theorem updateStats_failure_keeps_page_witness :
    (updateStats (.responded ⟨503, none⟩) sampleWorld).2.dom = sampleWorld.dom :=
  updateStats_failure_keeps_page sampleWorld (.responded ⟨503, none⟩) (Or.inr ⟨503, rfl⟩)

/-- C7 as stated fails: the table is emptied as soon as the body has parsed, before
its shape or the HTTP status count for anything. With status 500 and a JSON error
document, and equally with status 200 and an object where an array is expected, the
one row the table held is gone and `forEach` then throws. -/
theorem updateRecentThreats_clears_before_shape_check :
    Response.ok ⟨500, some errorBody⟩ = false
    ∧ sampleWorld.dom.threatsTable
        = some [{ className := "table-row hover:bg-gray-50", innerHTML := "old" }]
    ∧ (updateRecentThreats sampleHost (.responded ⟨500, some errorBody⟩)
        sampleWorld).2.dom.threatsTable = some []
    ∧ (updateRecentThreats sampleHost (.responded ⟨200, some (.obj [])⟩)
        sampleWorld).2.dom.threatsTable = some []
    ∧ (updateRecentThreats sampleHost (.responded ⟨200, some (.obj [])⟩)
        sampleWorld).2.console = [⟨"خطأ في تحديث التهديدات:", .typeError⟩]
    ∧ (updateRecentThreats sampleHost (.responded ⟨500, some errorBody⟩)
        sampleWorld).2.dom.threatsTable ≠ sampleWorld.dom.threatsTable := by
  decide

/-- C7, amended: for every prior page, when the /recent-threats request fails on
the network, or the body of the response (of whatever HTTP status) is not valid
JSON, the page, and so the table, is after `updateRecentThreats` what it was before:
the table is cleared only once the body has parsed. -/
theorem updateRecentThreats_failure_keeps_page (H : Host) (w : World) (o : FetchOutcome)
    (h : o = .failed ∨ ∃ st, o = .responded ⟨st, none⟩) :
    (updateRecentThreats H o w).2.dom = w.dom := by
  rcases h with rfl | ⟨st, rfl⟩ <;> rfl

/-- C7 amended, at a network failure. -/
theorem updateRecentThreats_failure_keeps_page_witness :
    (updateRecentThreats sampleHost .failed sampleWorld).2.dom = sampleWorld.dom :=
  updateRecentThreats_failure_keeps_page sampleHost sampleWorld .failed (Or.inl rfl)

/-- C8 as stated fails: with HTTP status 500 and a JSON error document as body,
`updateProtectionStatus` writes the empty text over the status and the level, then
throws at `features_enabled.map`; class and feature list stay, the panel is left
half written. -/
theorem updateProtectionStatus_http_error_overwrites :
    Response.ok ⟨500, some errorBody⟩ = false
    ∧ sampleWorld.dom.protectionStatus
        = some { textContent := "نشط", className := "text-lg font-semibold text-green-600" }
    ∧ sampleWorld.dom.protectionLevel = some "high"
    ∧ (updateProtectionStatus (.responded ⟨500, some errorBody⟩) sampleWorld).2.dom.protectionStatus
        = some { textContent := "", className := "text-lg font-semibold text-green-600" }
    ∧ (updateProtectionStatus (.responded ⟨500, some errorBody⟩) sampleWorld).2.dom.protectionLevel
        = some ""
    ∧ (updateProtectionStatus (.responded ⟨500, some errorBody⟩) sampleWorld).2.dom.enabledFeatures
        = sampleWorld.dom.enabledFeatures
    ∧ (updateProtectionStatus (.responded ⟨500, some errorBody⟩) sampleWorld).2.dom
        ≠ sampleWorld.dom := by
  decide

/-- C8, amended: for every prior state of the panel, when the /protection-status
request fails on the network, or the body of the response (of whatever HTTP
status) is not valid JSON, `updateProtectionStatus` leaves the page, and so the
status text, its class, the level text and the feature list, as it was. -/
theorem updateProtectionStatus_failure_keeps_page (w : World) (o : FetchOutcome)
    (h : o = .failed ∨ ∃ st, o = .responded ⟨st, none⟩) :
    (updateProtectionStatus o w).2.dom = w.dom := by
  rcases h with rfl | ⟨st, rfl⟩ <;> rfl

/-- C8 amended, at status 404 with a body that is not JSON. -/
theorem updateProtectionStatus_failure_keeps_page_witness :
    (updateProtectionStatus (.responded ⟨404, none⟩) sampleWorld).2.dom = sampleWorld.dom :=
  updateProtectionStatus_failure_keeps_page sampleWorld (.responded ⟨404, none⟩)
    (Or.inr ⟨404, rfl⟩)

/-! ## C9 -/

/-- Every promise `updateAllData` drops is fulfilled, whatever the order. -/
theorem updateAllData_all_fulfilled (H : Host) (outs : Op → FetchOutcome) (order : List Op) :
    ∀ w : World,
      (updateAllData H outs order w).1 = List.replicate order.length Completion.fulfilled := by
  induction order with
  | nil => intro w; rfl
  | cons op rest ih =>
    intro w
    have hop : (runOp H outs op w).1 = Completion.fulfilled := by
      cases op <;> exact runAsync_tryCatch_fulfilled _ _ _
    simp [updateAllData, hop, ih, List.replicate_succ]

/-- C9: for every page (elements present or not), every outcome of the request and
of the body parse, each of `updateStats`, `updateRecentThreats` and
`updateProtectionStatus` ends with its promise fulfilled, never rejected; so every
promise started by `updateAllData` is fulfilled, in whatever order the responses
arrive, and in particular when the body of /stats is not JSON. -/
theorem refresh_never_rejects (H : Host) (w : World) (o : FetchOutcome)
    (outs : Op → FetchOutcome) (order : List Op) (st : Nat) :
    (updateStats o w).1 = .fulfilled
    ∧ (updateRecentThreats H o w).1 = .fulfilled
    ∧ (updateProtectionStatus o w).1 = .fulfilled
    ∧ (updateAllData H outs order w).1 = List.replicate order.length Completion.fulfilled
    ∧ (updateStats (.responded ⟨st, none⟩) w).1 = .fulfilled :=
  ⟨runAsync_tryCatch_fulfilled _ _ _, runAsync_tryCatch_fulfilled _ _ _,
    runAsync_tryCatch_fulfilled _ _ _, updateAllData_all_fulfilled H outs order w,
    runAsync_tryCatch_fulfilled _ _ _⟩

/-! ## C10 -/

/-- C10 as stated fails: an HTTP error status alone is not turned into a log entry.
With status 500 and a JSON body, `updateStats` (an error document), `updateRecentThreats`
(an empty array) and `updateProtectionStatus` (a well-formed status document) all
finish with the console as empty as it was. -/
theorem http_error_not_logged :
    Response.ok ⟨500, some errorBody⟩ = false
    ∧ sampleWorld.console = []
    ∧ (updateStats (.responded ⟨500, some errorBody⟩) sampleWorld).2.console = []
    ∧ (updateRecentThreats sampleHost (.responded ⟨500, some (.arr [])⟩) sampleWorld).2.console = []
    ∧ (updateProtectionStatus (.responded ⟨500, some (.obj sampleStatus)⟩) sampleWorld).2.console
        = []
    ∧ (updateStats (.responded ⟨500, some errorBody⟩) sampleWorld).1 = .fulfilled := by
  decide

/-- C10, amended: for each of the three operations, every network failure and every
body that is not valid JSON (whatever the HTTP status) is turned into exactly one
log entry, appended to the console, carrying the operation's own context string
and the error caught. -/
theorem refresh_failure_logged (H : Host) (w : World) (o : FetchOutcome)
    (h : o = .failed ∨ ∃ st, o = .responded ⟨st, none⟩) :
    ∃ e : JsError,
      (updateStats o w).2.console = w.console ++ [⟨"خطأ في تحديث الإحصائيات:", e⟩]
      ∧ (updateRecentThreats H o w).2.console = w.console ++ [⟨"خطأ في تحديث التهديدات:", e⟩]
      ∧ (updateProtectionStatus o w).2.console
          = w.console ++ [⟨"خطأ في تحديث حالة الحماية:", e⟩] := by
  rcases h with rfl | ⟨st, rfl⟩
  · exact ⟨.fetchFailed, rfl, rfl, rfl⟩
  · exact ⟨.bodyNotJson, rfl, rfl, rfl⟩

/-- C10 amended, at status 502 with a body that is not JSON. -/
theorem refresh_failure_logged_witness :
    ∃ e : JsError,
      (updateStats (.responded ⟨502, none⟩) sampleWorld).2.console
          = sampleWorld.console ++ [⟨"خطأ في تحديث الإحصائيات:", e⟩]
      ∧ (updateRecentThreats sampleHost (.responded ⟨502, none⟩) sampleWorld).2.console
          = sampleWorld.console ++ [⟨"خطأ في تحديث التهديدات:", e⟩]
      ∧ (updateProtectionStatus (.responded ⟨502, none⟩) sampleWorld).2.console
          = sampleWorld.console ++ [⟨"خطأ في تحديث حالة الحماية:", e⟩] :=
  refresh_failure_logged sampleHost sampleWorld (.responded ⟨502, none⟩) (Or.inr ⟨502, rfl⟩)

/-! ## C11: each operation writes its own region only -/

theorem sameRegion_frameRel (op : Op) : FrameRel (Dom.sameRegion op) := by
  constructor
  · intro d; cases op <;> simp [Dom.sameRegion]
  · intro a b c h1 h2; cases op <;> simp_all [Dom.sameRegion]

theorem sameRegion_symm (op : Op) (d1 d2 : Dom) (h : Dom.sameRegion op d1 d2) :
    Dom.sameRegion op d2 d1 := by
  cases op <;> simp_all [Dom.sameRegion]

theorem sameElements_frameRel : FrameRel Dom.sameElements := by
  constructor
  · intro d; simp [Dom.sameElements]
  · intro a b c h1 h2; simp_all [Dom.sameElements]

theorem keeps_ret {α : Type} {R : Dom → Dom → Prop} (hR : FrameRel R) (a : α) :
    Js.Keeps R (Js.ret a) := fun w => hR.refl w.dom

theorem keeps_eval {α : Type} {R : Dom → Dom → Prop} (hR : FrameRel R)
    (r : Except JsError α) : Js.Keeps R (Js.eval r) := fun w => hR.refl w.dom

theorem keeps_seq {α β : Type} {R : Dom → Dom → Prop} (hR : FrameRel R) {m : Js α}
    {f : α → Js β} (hm : Js.Keeps R m) (hf : ∀ a, Js.Keeps R (f a)) :
    Js.Keeps R (Js.seq m f) := by
  intro w
  have h1 := hm w
  unfold Js.seq
  cases h : m w with
  | mk r w1 =>
    rw [h] at h1
    cases r with
    | ok a => exact hR.trans _ _ _ h1 (hf a w1)
    | error e => exact h1

theorem keeps_bind {α β : Type} {R : Dom → Dom → Prop} (hR : FrameRel R) {m : Js α}
    {f : α → Js β} (hm : Js.Keeps R m) (hf : ∀ a, Js.Keeps R (f a)) :
    Js.Keeps R (m >>= f) := keeps_seq hR hm hf

theorem keeps_consoleError {R : Dom → Dom → Prop} (hR : FrameRel R) (context : String)
    (e : JsError) : Js.Keeps R (consoleError context e) := fun w => hR.refl w.dom

theorem keeps_tryCatch {R : Dom → Dom → Prop} (hR : FrameRel R) {body : Js Unit}
    {handler : JsError → Js Unit} (hb : Js.Keeps R body) (hh : ∀ e, Js.Keeps R (handler e)) :
    Js.Keeps R (tryCatch body handler) := by
  intro w
  have h1 := hb w
  unfold CyberSentinel.tryCatch
  cases h : body w with
  | mk r w1 =>
    rw [h] at h1
    cases r with
    | ok a => exact h1
    | error e => exact hR.trans _ _ _ h1 (hh e w1)

theorem keeps_runAsync {R : Dom → Dom → Prop} {body : Js Unit} (hb : Js.Keeps R body)
    (w : World) : R w.dom (runAsync body w).2.dom := by
  have h1 := hb w
  unfold CyberSentinel.runAsync
  cases h : body w with
  | mk r w1 =>
    rw [h] at h1
    cases r <;> exact h1

theorem keeps_awaitFetch {R : Dom → Dom → Prop} (hR : FrameRel R) (o : FetchOutcome) :
    Js.Keeps R (awaitFetch o) := by
  cases o <;> exact fun w => hR.refl w.dom

theorem keeps_awaitJson {R : Dom → Dom → Prop} (hR : FrameRel R) (r : Response) :
    Js.Keeps R (awaitJson r) := by
  obtain ⟨st, body⟩ := r
  cases body <;> exact fun w => hR.refl w.dom

theorem keeps_forEachItem {R : Dom → Dom → Prop} (hR : FrameRel R) {f : JsVal → Js Unit}
    (hf : ∀ v, Js.Keeps R (f v)) (items : List JsVal) : Js.Keeps R (forEachItem f items) := by
  induction items with
  | nil => exact keeps_ret hR ()
  | cons v rest ih => exact keeps_seq hR (hf v) (fun _ => ih)

theorem keeps_callForEach {R : Dom → Dom → Prop} (hR : FrameRel R) {f : JsVal → Js Unit}
    (hf : ∀ v, Js.Keeps R (f v)) (v : JsVal) : Js.Keeps R (callForEach v f) := by
  cases v <;> first
    | exact keeps_forEachItem hR hf _
    | exact keeps_eval hR _

theorem assignText_keeps_region (slot : TextSlot) (v : JsVal) (op : Op)
    (h : slot.region ≠ op) : Js.Keeps (Dom.sameRegion op) (assignText slot v) := by
  intro w
  unfold assignText
  split
  · exact (sameRegion_frameRel op).refl _
  · split
    · exact (sameRegion_frameRel op).refl _
    · cases slot <;> cases op <;> simp_all [Dom.sameRegion, Dom.setText, TextSlot.region]

theorem assignStatusText_keeps_region (v : JsVal) (op : Op) (h : op ≠ .protection) :
    Js.Keeps (Dom.sameRegion op) (assignStatusText v) := by
  intro w
  unfold assignStatusText
  split
  · exact (sameRegion_frameRel op).refl _
  · split
    · exact (sameRegion_frameRel op).refl _
    · cases op <;> simp_all [Dom.sameRegion]

theorem assignStatusClass_keeps_region (cls : String) (op : Op) (h : op ≠ .protection) :
    Js.Keeps (Dom.sameRegion op) (assignStatusClass cls) := by
  intro w
  unfold assignStatusClass
  split
  · exact (sameRegion_frameRel op).refl _
  · cases op <;> simp_all [Dom.sameRegion]

theorem assignFeatures_keeps_region (markup : String) (op : Op) (h : op ≠ .protection) :
    Js.Keeps (Dom.sameRegion op) (assignFeatures markup) := by
  intro w
  unfold assignFeatures
  split
  · exact (sameRegion_frameRel op).refl _
  · cases op <;> simp_all [Dom.sameRegion]

theorem clearTable_keeps_region (op : Op) (h : op ≠ .threats) :
    Js.Keeps (Dom.sameRegion op) clearTable := by
  intro w
  unfold clearTable
  split
  · exact (sameRegion_frameRel op).refl _
  · cases op <;> simp_all [Dom.sameRegion]

theorem appendRow_keeps_region (row : Row) (op : Op) (h : op ≠ .threats) :
    Js.Keeps (Dom.sameRegion op) (appendRow row) := by
  intro w
  unfold appendRow
  split
  · exact (sameRegion_frameRel op).refl _
  · cases op <;> simp_all [Dom.sameRegion]

theorem assignText_keeps_elements (slot : TextSlot) (v : JsVal) :
    Js.Keeps Dom.sameElements (assignText slot v) := by
  intro w
  unfold assignText
  split
  · exact sameElements_frameRel.refl _
  · split
    · exact sameElements_frameRel.refl _
    · cases slot <;> simp_all [Dom.sameElements, Dom.setText, Dom.text]

theorem assignStatusText_keeps_elements (v : JsVal) :
    Js.Keeps Dom.sameElements (assignStatusText v) := by
  intro w
  unfold assignStatusText
  split
  · exact sameElements_frameRel.refl _
  · split
    · exact sameElements_frameRel.refl _
    · simp_all [Dom.sameElements]

theorem assignStatusClass_keeps_elements (cls : String) :
    Js.Keeps Dom.sameElements (assignStatusClass cls) := by
  intro w
  unfold assignStatusClass
  split
  · exact sameElements_frameRel.refl _
  · simp_all [Dom.sameElements]

theorem assignFeatures_keeps_elements (markup : String) :
    Js.Keeps Dom.sameElements (assignFeatures markup) := by
  intro w
  unfold assignFeatures
  split
  · exact sameElements_frameRel.refl _
  · simp_all [Dom.sameElements]

theorem clearTable_keeps_elements : Js.Keeps Dom.sameElements clearTable := by
  intro w
  unfold clearTable
  split
  · exact sameElements_frameRel.refl _
  · simp_all [Dom.sameElements]

theorem appendRow_keeps_elements (row : Row) : Js.Keeps Dom.sameElements (appendRow row) := by
  intro w
  unfold appendRow
  split
  · exact sameElements_frameRel.refl _
  · simp_all [Dom.sameElements]

/-- Whatever `updateStats` meets, it relates the page by every relation its four
slot writes respect. -/
theorem updateStats_keeps {R : Dom → Dom → Prop} (hR : FrameRel R)
    (hT : ∀ slot v, TextSlot.region slot = .stats → Js.Keeps R (assignText slot v))
    (o : FetchOutcome) (w : World) : R w.dom (updateStats o w).2.dom := by
  unfold updateStats
  apply keeps_runAsync
  apply keeps_tryCatch hR _ (fun e => keeps_consoleError hR _ e)
  apply keeps_bind hR (keeps_awaitFetch hR o); intro response
  apply keeps_bind hR (keeps_awaitJson hR response); intro data
  repeat first
    | exact hT _ _ rfl
    | exact keeps_eval hR _
    | intro _
    | apply keeps_bind hR

/-- Whatever `updateRecentThreats` meets, it relates the page by every relation
its table writes respect. -/
theorem updateRecentThreats_keeps {R : Dom → Dom → Prop} (hR : FrameRel R)
    (hC : Js.Keeps R clearTable) (hA : ∀ row, Js.Keeps R (appendRow row))
    (H : Host) (o : FetchOutcome) (w : World) : R w.dom (updateRecentThreats H o w).2.dom := by
  unfold updateRecentThreats
  apply keeps_runAsync
  apply keeps_tryCatch hR _ (fun e => keeps_consoleError hR _ e)
  apply keeps_bind hR (keeps_awaitFetch hR o); intro response
  apply keeps_bind hR (keeps_awaitJson hR response); intro threats
  apply keeps_bind hR hC; intro _
  apply keeps_callForEach hR
  intro threat
  unfold addThreatRow
  exact keeps_bind hR (keeps_eval hR _) (fun row => hA row)

/-- Whatever `updateProtectionStatus` meets, it relates the page by every relation
its panel writes respect. -/
theorem updateProtectionStatus_keeps {R : Dom → Dom → Prop} (hR : FrameRel R)
    (hS : ∀ v, Js.Keeps R (assignStatusText v))
    (hL : ∀ v, Js.Keeps R (assignText .protectionLevel v))
    (hF : ∀ markup, Js.Keeps R (assignFeatures markup))
    (hK : ∀ cls, Js.Keeps R (assignStatusClass cls))
    (o : FetchOutcome) (w : World) : R w.dom (updateProtectionStatus o w).2.dom := by
  unfold updateProtectionStatus
  apply keeps_runAsync
  apply keeps_tryCatch hR _ (fun e => keeps_consoleError hR _ e)
  apply keeps_bind hR (keeps_awaitFetch hR o); intro response
  apply keeps_bind hR (keeps_awaitJson hR response); intro status
  repeat first
    | exact hS _
    | exact hL _
    | exact hF _
    | exact hK _
    | exact keeps_eval hR _
    | intro _
    | apply keeps_bind hR

/-- An operation leaves the region of every other operation as it was. -/
theorem runOp_keeps_other_region (H : Host) (outs : Op → FetchOutcome) (op other : Op)
    (h : op ≠ other) (w : World) :
    Dom.sameRegion other w.dom (runOp H outs op w).2.dom := by
  have hR := sameRegion_frameRel other
  cases op with
  | stats =>
    exact updateStats_keeps hR
      (fun slot v hs => assignText_keeps_region slot v other (by rw [hs]; exact h)) _ w
  | threats =>
    exact updateRecentThreats_keeps hR (clearTable_keeps_region other (Ne.symm h))
      (fun row => appendRow_keeps_region row other (Ne.symm h)) H _ w
  | protection =>
    exact updateProtectionStatus_keeps hR
      (fun v => assignStatusText_keeps_region v other (Ne.symm h))
      (fun v => assignText_keeps_region _ v other h)
      (fun markup => assignFeatures_keeps_region markup other (Ne.symm h))
      (fun cls => assignStatusClass_keeps_region cls other (Ne.symm h)) _ w

/-- No operation adds or removes an element. -/
theorem runOp_keeps_elements (H : Host) (outs : Op → FetchOutcome) (op : Op) (w : World) :
    Dom.sameElements w.dom (runOp H outs op w).2.dom := by
  have hR := sameElements_frameRel
  cases op with
  | stats => exact updateStats_keeps hR (fun slot v _ => assignText_keeps_elements slot v) _ w
  | threats =>
    exact updateRecentThreats_keeps hR clearTable_keeps_elements appendRow_keeps_elements H _ w
  | protection =>
    exact updateProtectionStatus_keeps hR assignStatusText_keeps_elements
      (fun v => assignText_keeps_elements _ v) assignFeatures_keeps_elements
      assignStatusClass_keeps_elements _ w

theorem local_ret {α : Type} {E : Dom → Dom → Prop} (a : α) : Js.Local E (Js.ret a) :=
  fun _ _ h => ⟨rfl, h⟩

theorem local_eval {α : Type} {E : Dom → Dom → Prop} (r : Except JsError α) :
    Js.Local E (Js.eval r) := fun _ _ h => ⟨rfl, h⟩

theorem local_seq {α β : Type} {E : Dom → Dom → Prop} {m : Js α} {f : α → Js β}
    (hm : Js.Local E m) (hf : ∀ a, Js.Local E (f a)) : Js.Local E (Js.seq m f) := by
  intro w1 w2 h
  obtain ⟨hres, hdom⟩ := hm w1 w2 h
  unfold Js.seq
  cases h1 : m w1 with
  | mk r1 v1 =>
    cases h2 : m w2 with
    | mk r2 v2 =>
      rw [h1, h2] at hres hdom
      simp only at hres hdom
      subst hres
      cases r1 with
      | ok a => exact hf a v1 v2 hdom
      | error e => exact ⟨rfl, hdom⟩

theorem local_bind {α β : Type} {E : Dom → Dom → Prop} {m : Js α} {f : α → Js β}
    (hm : Js.Local E m) (hf : ∀ a, Js.Local E (f a)) : Js.Local E (m >>= f) :=
  local_seq hm hf

theorem local_consoleError {E : Dom → Dom → Prop} (context : String) (e : JsError) :
    Js.Local E (consoleError context e) := fun _ _ h => ⟨rfl, h⟩

theorem local_tryCatch {E : Dom → Dom → Prop} {body : Js Unit}
    {handler : JsError → Js Unit} (hb : Js.Local E body) (hh : ∀ e, Js.Local E (handler e)) :
    Js.Local E (tryCatch body handler) := by
  intro w1 w2 h
  obtain ⟨hres, hdom⟩ := hb w1 w2 h
  unfold CyberSentinel.tryCatch
  cases h1 : body w1 with
  | mk r1 v1 =>
    cases h2 : body w2 with
    | mk r2 v2 =>
      rw [h1, h2] at hres hdom
      simp only at hres hdom
      subst hres
      cases r1 with
      | ok a => exact ⟨rfl, hdom⟩
      | error e => exact hh e v1 v2 hdom

theorem local_runAsync {E : Dom → Dom → Prop} {body : Js Unit} (hb : Js.Local E body)
    (w1 w2 : World) (h : E w1.dom w2.dom) :
    E (runAsync body w1).2.dom (runAsync body w2).2.dom := by
  obtain ⟨hres, hdom⟩ := hb w1 w2 h
  unfold CyberSentinel.runAsync
  cases h1 : body w1 with
  | mk r1 v1 =>
    cases h2 : body w2 with
    | mk r2 v2 =>
      rw [h1, h2] at hres hdom
      simp only at hres hdom
      subst hres
      cases r1 <;> exact hdom

theorem local_awaitFetch {E : Dom → Dom → Prop} (o : FetchOutcome) :
    Js.Local E (awaitFetch o) := by
  cases o <;> exact fun _ _ h => ⟨rfl, h⟩

theorem local_awaitJson {E : Dom → Dom → Prop} (r : Response) :
    Js.Local E (awaitJson r) := by
  obtain ⟨st, body⟩ := r
  cases body <;> exact fun _ _ h => ⟨rfl, h⟩

theorem local_forEachItem {E : Dom → Dom → Prop} {f : JsVal → Js Unit}
    (hf : ∀ v, Js.Local E (f v)) (items : List JsVal) : Js.Local E (forEachItem f items) := by
  induction items with
  | nil => exact local_ret ()
  | cons v rest ih => exact local_seq (hf v) (fun _ => ih)

theorem local_callForEach {E : Dom → Dom → Prop} {f : JsVal → Js Unit}
    (hf : ∀ v, Js.Local E (f v)) (v : JsVal) : Js.Local E (callForEach v f) := by
  cases v <;> first
    | exact local_forEachItem hf _
    | exact local_eval _

theorem assignText_local (slot : TextSlot) (v : JsVal) :
    Js.Local (Dom.sameRegion slot.region) (assignText slot v) := by
  intro w1 w2 h
  have hs : w1.dom.text slot = w2.dom.text slot := by
    cases slot <;> simp_all [Dom.sameRegion, TextSlot.region, Dom.text]
  unfold assignText
  rw [hs]
  cases w2.dom.text slot with
  | none => exact ⟨rfl, h⟩
  | some t =>
    cases v.toDomString with
    | error e => exact ⟨rfl, h⟩
    | ok text => cases slot <;> simp_all [Dom.sameRegion, TextSlot.region, Dom.setText]

theorem assignStatusText_local (v : JsVal) :
    Js.Local (Dom.sameRegion .protection) (assignStatusText v) := by
  intro w1 w2 h
  have hs : w1.dom.protectionStatus = w2.dom.protectionStatus := h.1
  unfold assignStatusText
  rw [hs]
  cases w2.dom.protectionStatus with
  | none => exact ⟨rfl, h⟩
  | some el =>
    cases v.toDomString with
    | error e => exact ⟨rfl, h⟩
    | ok text => simp_all [Dom.sameRegion]

theorem assignStatusClass_local (cls : String) :
    Js.Local (Dom.sameRegion .protection) (assignStatusClass cls) := by
  intro w1 w2 h
  have hs : w1.dom.protectionStatus = w2.dom.protectionStatus := h.1
  unfold assignStatusClass
  rw [hs]
  cases w2.dom.protectionStatus with
  | none => exact ⟨rfl, h⟩
  | some el => simp_all [Dom.sameRegion]

theorem assignFeatures_local (markup : String) :
    Js.Local (Dom.sameRegion .protection) (assignFeatures markup) := by
  intro w1 w2 h
  have hs : w1.dom.enabledFeatures = w2.dom.enabledFeatures := h.2.2
  unfold assignFeatures
  rw [hs]
  cases w2.dom.enabledFeatures with
  | none => exact ⟨rfl, h⟩
  | some el => simp_all [Dom.sameRegion]

theorem clearTable_local : Js.Local (Dom.sameRegion .threats) clearTable := by
  intro w1 w2 h
  have hs : w1.dom.threatsTable = w2.dom.threatsTable := h
  unfold clearTable
  rw [hs]
  cases w2.dom.threatsTable with
  | none => exact ⟨rfl, h⟩
  | some rows => simp [Dom.sameRegion]

theorem appendRow_local (row : Row) : Js.Local (Dom.sameRegion .threats) (appendRow row) := by
  intro w1 w2 h
  have hs : w1.dom.threatsTable = w2.dom.threatsTable := h
  unfold appendRow
  rw [hs]
  cases w2.dom.threatsTable with
  | none => exact ⟨rfl, h⟩
  | some rows => simp [Dom.sameRegion]

/-- What an operation leaves in its own region depends on the page only through
that region. -/
theorem runOp_local (H : Host) (outs : Op → FetchOutcome) (op : Op) (w1 w2 : World)
    (h : Dom.sameRegion op w1.dom w2.dom) :
    Dom.sameRegion op (runOp H outs op w1).2.dom (runOp H outs op w2).2.dom := by
  cases op with
  | stats =>
    unfold runOp updateStats
    refine local_runAsync (local_tryCatch ?_ (fun e => local_consoleError _ e)) w1 w2 h
    apply local_bind (local_awaitFetch _); intro response
    apply local_bind (local_awaitJson response); intro data
    apply local_bind (local_eval _); intro v1
    apply local_bind (assignText_local TextSlot.serversCount v1); intro _
    apply local_bind (local_eval _); intro v2
    apply local_bind (assignText_local TextSlot.usersCount v2); intro _
    apply local_bind (local_eval _); intro v3
    apply local_bind (assignText_local TextSlot.threatsBlocked v3); intro _
    apply local_bind (local_eval _); intro v4
    exact assignText_local TextSlot.scansCount v4
  | threats =>
    unfold runOp updateRecentThreats
    refine local_runAsync (local_tryCatch ?_ (fun e => local_consoleError _ e)) w1 w2 h
    apply local_bind (local_awaitFetch _); intro response
    apply local_bind (local_awaitJson response); intro threats
    apply local_bind clearTable_local; intro _
    apply local_callForEach
    intro threat
    unfold addThreatRow
    exact local_bind (local_eval _) (fun row => appendRow_local row)
  | protection =>
    unfold runOp updateProtectionStatus
    refine local_runAsync (local_tryCatch ?_ (fun e => local_consoleError _ e)) w1 w2 h
    apply local_bind (local_awaitFetch _); intro response
    apply local_bind (local_awaitJson response); intro status
    apply local_bind (local_eval _); intro v1
    apply local_bind (assignStatusText_local v1); intro _
    apply local_bind (local_eval _); intro v2
    apply local_bind (assignText_local TextSlot.protectionLevel v2); intro _
    apply local_bind (local_eval _); intro features
    apply local_bind (local_eval _); intro markup
    apply local_bind (assignFeatures_local markup); intro _
    apply local_bind (local_eval _); intro v3
    exact assignStatusClass_local _

/-- A cycle leaves the region of an operation it does not run as it was. -/
theorem updateAllData_keeps_absent (H : Host) (outs : Op → FetchOutcome) (op : Op)
    (order : List Op) (hop : op ∉ order) :
    ∀ w : World, Dom.sameRegion op w.dom (updateAllData H outs order w).2.dom := by
  induction order with
  | nil => intro w; exact (sameRegion_frameRel op).refl _
  | cons x rest ih =>
    intro w
    have hx : x ≠ op := fun hxe => hop (hxe ▸ List.mem_cons_self _ _)
    have hrest : op ∉ rest := fun hm => hop (List.mem_cons_of_mem _ hm)
    exact (sameRegion_frameRel op).trans _ _ _ (runOp_keeps_other_region H outs x op hx w)
      (ih hrest (runOp H outs x w).2)

/-- In a cycle that runs each operation at most once, the region of an operation
it runs ends as that operation alone, run on the starting page, leaves it. -/
theorem updateAllData_region (H : Host) (outs : Op → FetchOutcome) (op : Op)
    (order : List Op) (hnd : order.Nodup) (hop : op ∈ order) :
    ∀ w : World,
      Dom.sameRegion op (updateAllData H outs order w).2.dom (runOp H outs op w).2.dom := by
  induction order with
  | nil => exact absurd hop (List.not_mem_nil _)
  | cons x rest ih =>
    intro w
    obtain ⟨hx, hrest⟩ := List.nodup_cons.mp hnd
    by_cases hxe : x = op
    · subst hxe
      exact sameRegion_symm _ _ _ (updateAllData_keeps_absent H outs x rest hx _)
    · have hmem : op ∈ rest := by
        rcases List.mem_cons.mp hop with h | h
        · exact absurd h.symm hxe
        · exact h
      have h1 := ih hrest hmem (runOp H outs x w).2
      have h2 := runOp_keeps_other_region H outs x op hxe w
      have h3 := runOp_local H outs op _ _ h2
      exact (sameRegion_frameRel op).trans _ _ _ h1 (sameRegion_symm _ _ _ h3)

/-- An operation looks at the outcome of its own request only. -/
theorem runOp_congr (H : Host) (outs outs2 : Op → FetchOutcome) (op : Op)
    (h : outs2 op = outs op) : runOp H outs2 op = runOp H outs op := by
  cases op <;> simp [runOp, h]

/-- C11: for every page and every combination of outcomes of the three endpoints,
(1) each operation leaves the regions of the two other operations exactly as they
were; (2) after one `updateAllData` cycle, in whatever order the three responses
arrive, the region of each operation is what that operation alone leaves when run
on the starting page; (3) so the region of an operation ends the same in any two
cycles that agree on the outcome of its own request, whatever the other two
endpoints did (failed or not) and whatever the arrival orders. -/
theorem refresh_regions_independent (H : Host) (outs : Op → FetchOutcome) (w : World)
    (order : List Op) (hperm : order.Perm [.stats, .threats, .protection]) :
    (∀ op other, op ≠ other → Dom.sameRegion other (runOp H outs op w).2.dom w.dom)
    ∧ (∀ op, Dom.sameRegion op (updateAllData H outs order w).2.dom (runOp H outs op w).2.dom)
    ∧ (∀ (outs2 : Op → FetchOutcome) (order2 : List Op),
        order2.Perm [.stats, .threats, .protection] →
        ∀ op, outs2 op = outs op →
          Dom.sameRegion op (updateAllData H outs2 order2 w).2.dom
            (updateAllData H outs order w).2.dom) := by
  have hbase : ([Op.stats, Op.threats, Op.protection] : List Op).Nodup := by decide
  have hmem : ∀ (l : List Op), l.Perm [.stats, .threats, .protection] → ∀ op, op ∈ l := by
    intro l hl op
    refine hl.mem_iff.mpr ?_
    cases op <;> simp
  have hcycle : ∀ (o : Op → FetchOutcome) (l : List Op),
      l.Perm [.stats, .threats, .protection] →
      ∀ op, Dom.sameRegion op (updateAllData H o l w).2.dom (runOp H o op w).2.dom :=
    fun o l hl op => updateAllData_region H o op l (hl.nodup_iff.mpr hbase) (hmem l hl op) w
  refine ⟨?_, hcycle outs order hperm, ?_⟩
  · intro op other hne
    exact sameRegion_symm _ _ _ (runOp_keeps_other_region H outs op other hne w)
  · intro outs2 order2 hperm2 op hsame
    have h1 := hcycle outs2 order2 hperm2 op
    have h2 := hcycle outs order hperm op
    rw [runOp_congr H outs outs2 op hsame] at h1
    exact (sameRegion_frameRel op).trans _ _ _ h1 (sameRegion_symm _ _ _ h2)

/-- C11 at a cycle where /stats fails on the network and the two other responses
arrive in the order protection, threats. -/
theorem refresh_regions_independent_witness :
    (∀ op other, op ≠ other →
        Dom.sameRegion other (runOp sampleHost statsDown op sampleWorld).2.dom sampleWorld.dom)
    ∧ (∀ op, Dom.sameRegion op
        (updateAllData sampleHost statsDown [.protection, .stats, .threats] sampleWorld).2.dom
        (runOp sampleHost statsDown op sampleWorld).2.dom)
    ∧ (∀ (outs2 : Op → FetchOutcome) (order2 : List Op),
        order2.Perm [.stats, .threats, .protection] →
        ∀ op, outs2 op = statsDown op →
          Dom.sameRegion op (updateAllData sampleHost outs2 order2 sampleWorld).2.dom
            (updateAllData sampleHost statsDown [.protection, .stats, .threats]
              sampleWorld).2.dom) :=
  refresh_regions_independent sampleHost statsDown sampleWorld [.protection, .stats, .threats]
    (by decide)

/-! ## C12: the last response applied is the one shown -/

/-- With its four slots on the page, `updateStats` given an object body whose four
fields convert to text leaves in each slot the text of the body's field, whatever
the slot held. -/
theorem updateStats_rendered (w : World) (st : Nat) (props : List (String × JsVal))
    (x1 x2 x3 x4 : String)
    (c1 : ((props.lookup "servers").getD .undefined).toDomString = .ok x1)
    (c2 : ((props.lookup "users").getD .undefined).toDomString = .ok x2)
    (c3 : ((props.lookup "threats_blocked").getD .undefined).toDomString = .ok x3)
    (c4 : ((props.lookup "scans_performed").getD .undefined).toDomString = .ok x4)
    (h1 : w.dom.serversCount.isSome = true) (h2 : w.dom.usersCount.isSome = true)
    (h3 : w.dom.threatsBlocked.isSome = true) (h4 : w.dom.scansCount.isSome = true) :
    (updateStats (.responded ⟨st, some (.obj props)⟩) w).2.dom.serversCount = some x1
    ∧ (updateStats (.responded ⟨st, some (.obj props)⟩) w).2.dom.usersCount = some x2
    ∧ (updateStats (.responded ⟨st, some (.obj props)⟩) w).2.dom.threatsBlocked = some x3
    ∧ (updateStats (.responded ⟨st, some (.obj props)⟩) w).2.dom.scansCount = some x4 := by
  obtain ⟨dom, con⟩ := w
  obtain ⟨s1, s2, s3, s4, tb, ps, pl, ef⟩ := dom
  obtain ⟨t1, rfl⟩ := Option.isSome_iff_exists.mp h1
  obtain ⟨t2, rfl⟩ := Option.isSome_iff_exists.mp h2
  obtain ⟨t3, rfl⟩ := Option.isSome_iff_exists.mp h3
  obtain ⟨t4, rfl⟩ := Option.isSome_iff_exists.mp h4
  simp [updateStats, runAsync, tryCatch, awaitFetch, awaitJson, JsVal.getProp,
    assignText, Dom.text, Dom.setText, Js.seq, Js.ret, Js.eval, c1, c2, c3, c4]

/-- A record renders to one row only. -/
theorem renderRow_rows_unique (H : Host) (threats : List JsVal) :
    ∀ rows1 rows2 : List Row,
      List.Forall₂ (fun t r => renderRow H t = .ok r) threats rows1 →
      List.Forall₂ (fun t r => renderRow H t = .ok r) threats rows2 → rows1 = rows2 := by
  induction threats with
  | nil =>
    intro rows1 rows2 h1 h2
    cases h1; cases h2; rfl
  | cons t rest ih =>
    intro rows1 rows2 h1 h2
    cases h1 with
    | cons ha hb =>
      cases h2 with
      | cons hc hd =>
        have hrow := ha.symm.trans hc
        injection hrow with hrow
        rw [hrow, ih _ _ hb hd]

/-- With the table on the page, `updateRecentThreats` given an array of records
leaves in it the rows of the records, whatever the table held. -/
theorem updateRecentThreats_table (H : Host) (w : World) (st : Nat) (threats : List JsVal)
    (hrec : ∀ t ∈ threats, t.isThreatRecord = true)
    (htab : w.dom.threatsTable.isSome = true) :
    ∃ rows, List.Forall₂ (fun t r => renderRow H t = .ok r) threats rows
      ∧ (updateRecentThreats H (.responded ⟨st, some (.arr threats)⟩) w).2.dom.threatsTable
          = some rows := by
  obtain ⟨dom, con⟩ := w
  obtain ⟨prior, hprior⟩ := Option.isSome_iff_exists.mp htab
  obtain ⟨rows, hrows, hrun⟩ :=
    forEachItem_records H threats hrec { dom with threatsTable := some [] } con [] rfl
  simp only [] at hprior
  refine ⟨rows, hrows, ?_⟩
  simp [updateRecentThreats, runAsync, tryCatch, awaitFetch, awaitJson, clearTable, hprior,
    callForEach, Js.seq, Js.ret, hrun]

/-- With its three elements on the page, `updateProtectionStatus` given an object
body whose `status` and `level` convert to text and whose `features_enabled` is an
array of items that interpolate leaves a panel made from the body alone, whatever
the panel held. -/
theorem updateProtectionStatus_panel (w : World) (st : Nat) (props : List (String × JsVal))
    (items : List JsVal) (stext ltext : String) (texts : List String)
    (hfeat : props.lookup "features_enabled" = some (.arr items))
    (hs : ((props.lookup "status").getD .undefined).toDomString = .ok stext)
    (hl : ((props.lookup "level").getD .undefined).toDomString = .ok ltext)
    (hitems : featureItems items = .ok texts)
    (h1 : w.dom.protectionStatus.isSome = true) (h2 : w.dom.protectionLevel.isSome = true)
    (h3 : w.dom.enabledFeatures.isSome = true) :
    (updateProtectionStatus (.responded ⟨st, some (.obj props)⟩) w).2.dom.protectionStatus
        = some { textContent := stext
                 className := statusClass ((props.lookup "status").getD .undefined) }
    ∧ (updateProtectionStatus (.responded ⟨st, some (.obj props)⟩) w).2.dom.protectionLevel
        = some ltext
    ∧ (updateProtectionStatus (.responded ⟨st, some (.obj props)⟩) w).2.dom.enabledFeatures
        = some (String.join texts) := by
  obtain ⟨dom, con⟩ := w
  obtain ⟨el, hel⟩ := Option.isSome_iff_exists.mp h1
  obtain ⟨lv, hlv⟩ := Option.isSome_iff_exists.mp h2
  obtain ⟨ft, hft⟩ := Option.isSome_iff_exists.mp h3
  rw [updateProtectionStatus_rendered dom con st props items el lv ft stext ltext texts hfeat
    hs hl hitems hel hlv hft]
  exact ⟨rfl, rfl, rfl⟩

/-- No refresh operation changes which regions have their elements on the page. -/
theorem runOp_keeps_hasRegion (H : Host) (outs : Op → FetchOutcome) (op other : Op) (w : World) :
    (runOp H outs op w).2.dom.hasRegion other = w.dom.hasRegion other := by
  have hs := runOp_keeps_elements H outs op w
  simp only [Dom.sameElements] at hs
  obtain ⟨a1, a2, a3, a4, a5, a6, a7, a8⟩ := hs
  cases other <;> simp only [Dom.hasRegion, a1, a2, a3, a4, a5, a6, a7, a8]

/-- C12: for each endpoint, on pages holding the elements of its region, for every
earlier outcome of that endpoint (`first1`, `first2`, `first3`; successful or not,
of any body) and every later successful response (for /stats an object body whose
four fields are primitives; for /recent-threats an array of records whose `type`,
`severity` and `timestamp` are primitives; for /protection-status an object body
whose `status` and `level` are primitives and whose `features_enabled` is an array
of primitives), applying the earlier one and then the later one leaves the
endpoint's region equal to what applying the later one alone leaves on any other
such page `w2`: the region is replaced whole, nothing of the earlier snapshot is
kept, and what is shown is the response applied last. -/
theorem last_response_wins (H : Host) (w w2 : World) (first1 first2 first3 : FetchOutcome)
    (st : Nat) (stats : List (String × JsVal)) (threats : List JsVal)
    (status : List (String × JsVal))
    (hstats : isStatsBody stats = true)
    (hrec : ∀ t ∈ threats, t.isThreatRecord = true)
    (hstatus : isStatusBody status = true) :
    (w.dom.hasRegion .stats = true → w2.dom.hasRegion .stats = true →
      Dom.sameRegion .stats
        (updateStats (.responded ⟨st, some (.obj stats)⟩) (updateStats first1 w).2).2.dom
        (updateStats (.responded ⟨st, some (.obj stats)⟩) w2).2.dom)
    ∧ (w.dom.hasRegion .threats = true → w2.dom.hasRegion .threats = true →
      Dom.sameRegion .threats
        (updateRecentThreats H (.responded ⟨st, some (.arr threats)⟩)
          (updateRecentThreats H first2 w).2).2.dom
        (updateRecentThreats H (.responded ⟨st, some (.arr threats)⟩) w2).2.dom)
    ∧ (w.dom.hasRegion .protection = true → w2.dom.hasRegion .protection = true →
      Dom.sameRegion .protection
        (updateProtectionStatus (.responded ⟨st, some (.obj status)⟩)
          (updateProtectionStatus first3 w).2).2.dom
        (updateProtectionStatus (.responded ⟨st, some (.obj status)⟩) w2).2.dom) := by
  refine ⟨?_, ?_, ?_⟩
  · intro hw hw2
    have c1 : (updateStats first1 w).2.dom.hasRegion .stats = true :=
      (runOp_keeps_hasRegion H (fun _ => first1) .stats .stats w).trans hw
    simp only [Dom.hasRegion, Bool.and_eq_true] at c1 hw2
    simp only [isStatsBody, Bool.and_eq_true] at hstats
    obtain ⟨x1, e1⟩ := toDomString_primitive _ hstats.1.1.1
    obtain ⟨x2, e2⟩ := toDomString_primitive _ hstats.1.1.2
    obtain ⟨x3, e3⟩ := toDomString_primitive _ hstats.1.2
    obtain ⟨x4, e4⟩ := toDomString_primitive _ hstats.2
    obtain ⟨a1, a2, a3, a4⟩ := updateStats_rendered (updateStats first1 w).2 st stats
      x1 x2 x3 x4 e1 e2 e3 e4 c1.1.1.1 c1.1.1.2 c1.1.2 c1.2
    obtain ⟨b1, b2, b3, b4⟩ := updateStats_rendered w2 st stats
      x1 x2 x3 x4 e1 e2 e3 e4 hw2.1.1.1 hw2.1.1.2 hw2.1.2 hw2.2
    exact ⟨a1.trans b1.symm, a2.trans b2.symm, a3.trans b3.symm, a4.trans b4.symm⟩
  · intro hw hw2
    have c2 : (updateRecentThreats H first2 w).2.dom.hasRegion .threats = true :=
      (runOp_keeps_hasRegion H (fun _ => first2) .threats .threats w).trans hw
    simp only [Dom.hasRegion] at c2 hw2
    obtain ⟨rows1, hr1, a1⟩ := updateRecentThreats_table H (updateRecentThreats H first2 w).2 st
      threats hrec c2
    obtain ⟨rows2, hr2, b1⟩ := updateRecentThreats_table H w2 st threats hrec hw2
    have hrows := renderRow_rows_unique H threats rows1 rows2 hr1 hr2
    subst hrows
    exact a1.trans b1.symm
  · intro hw hw2
    have c3 : (updateProtectionStatus first3 w).2.dom.hasRegion .protection = true :=
      (runOp_keeps_hasRegion H (fun _ => first3) .protection .protection w).trans hw
    simp only [Dom.hasRegion, Bool.and_eq_true] at c3 hw2
    obtain ⟨items, stext, ltext, texts, hfeat, hs, hl, hitems⟩ :=
      isStatusBody_converts status hstatus
    obtain ⟨a1, a2, a3⟩ := updateProtectionStatus_panel (updateProtectionStatus first3 w).2 st
      status items stext ltext texts hfeat hs hl hitems c3.1.1 c3.1.2 c3.2
    obtain ⟨b1, b2, b3⟩ := updateProtectionStatus_panel w2 st status items stext ltext texts
      hfeat hs hl hitems hw2.1.1 hw2.1.2 hw2.2
    exact ⟨a1.trans b1.symm, a2.trans b2.symm, a3.trans b3.symm⟩

/-- C12 at the sample page: an earlier response of each endpoint (for /stats one
whose `servers` field does not convert to text), then a later well-formed one; the
regions end as the later one alone leaves them on a blank page. -/
theorem last_response_wins_witness :
    Dom.sameRegion .stats
        (updateStats (.responded ⟨200, some (.obj laterStats)⟩)
          (updateStats (.responded ⟨200, some (.obj brokenStats)⟩) sampleWorld).2).2.dom
        (updateStats (.responded ⟨200, some (.obj laterStats)⟩) blankWorld).2.dom
    ∧ Dom.sameRegion .threats
        (updateRecentThreats sampleHost (.responded ⟨200, some (.arr sampleThreats)⟩)
          (updateRecentThreats sampleHost (.responded ⟨200, some (.arr [oddThreat])⟩)
            sampleWorld).2).2.dom
        (updateRecentThreats sampleHost (.responded ⟨200, some (.arr sampleThreats)⟩)
          blankWorld).2.dom
    ∧ Dom.sameRegion .protection
        (updateProtectionStatus (.responded ⟨200, some (.obj sampleStatus)⟩)
          (updateProtectionStatus (.responded ⟨200, some (.obj stoppedStatus)⟩)
            sampleWorld).2).2.dom
        (updateProtectionStatus (.responded ⟨200, some (.obj sampleStatus)⟩) blankWorld).2.dom :=
  have h := last_response_wins sampleHost sampleWorld blankWorld
    (.responded ⟨200, some (.obj brokenStats)⟩)
    (.responded ⟨200, some (.arr [oddThreat])⟩)
    (.responded ⟨200, some (.obj stoppedStatus)⟩)
    200 laterStats sampleThreats sampleStatus
    (by decide)
    (by
      intro t ht
      simp only [sampleThreats, List.mem_cons, List.mem_singleton, List.not_mem_nil,
        or_false] at ht
      rcases ht with rfl | rfl <;> rfl)
    (by decide)
  ⟨h.1 (by decide) (by decide), h.2.1 (by decide) (by decide), h.2.2 (by decide) (by decide)⟩
/-! ## C13: the refresh schedule -/

/-- One millisecond keeps the schedule: one timer of period 30000 armed for the
next multiple of 30000, and one call recorded at every multiple reached so far. -/
theorem elapse_schedule (H : Host) (T : Traffic) (p : Page)
    (hi : p.intervals = [{ period := 30000, due := 30000 * (p.now / 30000 + 1) }])
    (hc : p.calls = (List.range (1 + p.now / 30000)).map (fun k => k * 30000)) :
    (elapse H T p).now = p.now + 1
    ∧ (elapse H T p).intervals
        = [{ period := 30000, due := 30000 * ((p.now + 1) / 30000 + 1) }]
    ∧ (elapse H T p).calls
        = (List.range (1 + (p.now + 1) / 30000)).map (fun k => k * 30000) := by
  by_cases hd : 30000 * (p.now / 30000 + 1) = p.now + 1
  · have hq : (p.now + 1) / 30000 = p.now / 30000 + 1 := by omega
    have hlast : (1 + p.now / 30000) * 30000 = p.now + 1 := by omega
    refine ⟨?_, ?_, ?_⟩
    · simp [elapse, fireDue, hi, hd, invokeUpdateAllData]
    · simp [elapse, fireDue, hi, hd, invokeUpdateAllData, hq]
      omega
    · rw [hq, show 1 + (p.now / 30000 + 1) = (1 + p.now / 30000) + 1 by omega,
        List.range_succ, List.map_append, ← hc]
      simp [elapse, fireDue, hi, hd, invokeUpdateAllData, hlast]
  · have hq : (p.now + 1) / 30000 = p.now / 30000 := by omega
    refine ⟨?_, ?_, ?_⟩
    · simp [elapse, fireDue, hi, hd]
    · simp [elapse, fireDue, hi, hd, hq]
    · rw [hq, ← hc]
      simp [elapse, fireDue, hi, hd]

/-- The schedule holds for any stretch of time. -/
theorem runFor_schedule (H : Host) (T : Traffic) (t : Nat) :
    ∀ p : Page,
      p.intervals = [{ period := 30000, due := 30000 * (p.now / 30000 + 1) }] →
      p.calls = (List.range (1 + p.now / 30000)).map (fun k => k * 30000) →
      (runFor H T t p).now = p.now + t
      ∧ (runFor H T t p).intervals
          = [{ period := 30000, due := 30000 * ((p.now + t) / 30000 + 1) }]
      ∧ (runFor H T t p).calls
          = (List.range (1 + (p.now + t) / 30000)).map (fun k => k * 30000) := by
  induction t with
  | zero => intro p hi hc; exact ⟨rfl, hi, hc⟩
  | succ t ih =>
    intro p hi hc
    obtain ⟨h1, h2, h3⟩ := elapse_schedule H T p hi hc
    have := ih (elapse H T p) (by rw [h1]; exact h2) (by rw [h1]; exact h3)
    rw [h1, show p.now + 1 + t = p.now + (t + 1) by omega] at this
    exact this

/-- C13: the startup handler invokes `updateAllData` once at once and registers it
on one repeating timer of period 30000 ms; on a clock that fires timers exactly
when due, for every page, every behaviour of the endpoints and every time `t` (in
ms) after startup, `updateAllData` has been invoked exactly `1 + t / 30000` times,
at the times 0, 30000, 60000, ..., and the one timer is still registered with its
period 30000, armed for the next multiple of 30000. -/
theorem refresh_schedule (H : Host) (T : Traffic) (w : World) (t : Nat) :
    (runFor H T t (onDOMContentLoaded H T (startPage w))).calls.length = 1 + t / 30000
    ∧ (runFor H T t (onDOMContentLoaded H T (startPage w))).calls
        = (List.range (1 + t / 30000)).map (fun k => k * 30000)
    ∧ (runFor H T t (onDOMContentLoaded H T (startPage w))).intervals
        = [{ period := 30000, due := 30000 * (t / 30000 + 1) }]
    ∧ (onDOMContentLoaded H T (startPage w)).calls = [0] := by
  obtain ⟨_, h2, h3⟩ := runFor_schedule H T t (onDOMContentLoaded H T (startPage w))
    (by simp [onDOMContentLoaded, setInterval, invokeUpdateAllData, startPage])
    (by simp [onDOMContentLoaded, setInterval, invokeUpdateAllData, startPage, List.range_succ])
  have hnow : (onDOMContentLoaded H T (startPage w)).now = 0 := rfl
  rw [hnow, Nat.zero_add] at h2 h3
  refine ⟨?_, h3, h2, rfl⟩
  rw [h3]
  simp

/-! ## C14: `animateCounter` -/

/-- With enough fuel, `excessBits` leaves fewer than 54 bits, and exactly 53 when it
drops any. -/
theorem excessBits_spec (fuel : Nat) : ∀ a : Nat, a ≤ fuel →
    a / 2 ^ excessBits fuel a < 2 ^ 53
      ∧ (excessBits fuel a = 0 ∨ 2 ^ 52 ≤ a / 2 ^ excessBits fuel a) := by
  induction fuel with
  | zero =>
    intro a ha
    have h0 : a = 0 := by omega
    subst h0
    simp [excessBits]
  | succ fuel ih =>
    intro a ha
    by_cases hlt : a < 2 ^ 53
    · have hs : excessBits (fuel + 1) a = 0 := by
        rw [excessBits, if_pos hlt]
      rw [hs, pow_zero, Nat.div_one]
      exact ⟨hlt, Or.inl rfl⟩
    · have hhalf : a / 2 ≤ fuel := by omega
      obtain ⟨h1, h2⟩ := ih (a / 2) hhalf
      have hs : excessBits (fuel + 1) a = 1 + excessBits fuel (a / 2) := by
        rw [excessBits, if_neg hlt]
      have hdiv : a / 2 ^ (1 + excessBits fuel (a / 2)) = a / 2 / 2 ^ excessBits fuel (a / 2) := by
        rw [pow_add, pow_one, Nat.div_div_eq_div_mul]
      rw [hs, hdiv]
      refine ⟨h1, Or.inr ?_⟩
      rcases h2 with h2 | h2
      · rw [h2, pow_zero, Nat.div_one]
        omega
      · exact h2

/-- Rounding a quotient to the nearest whole number is off by at most half. -/
theorem roundDiv_near (p d : Nat) (hd : 0 < d) :
    2 * (roundDiv p d * d) ≤ 2 * p + d ∧ 2 * p ≤ 2 * (roundDiv p d * d) + d := by
  have hdm := Nat.div_add_mod p d
  have hmod := Nat.mod_lt p hd
  have hmul : d * (p / d) = p / d * d := Nat.mul_comm _ _
  unfold roundDiv
  split
  · rename_i hup
    have hle : d ≤ 2 * (p % d) := by
      rcases hup with h | h
      · omega
      · omega
    rw [Nat.add_mul, Nat.one_mul]
    omega
  · rename_i hup
    have hle : 2 * (p % d) ≤ d := by
      by_contra hcon
      exact hup (Or.inl (by omega))
    omega

/-- Rounding a quotient in the normal range to a double changes it by at most one
part in 2^53. -/
theorem round53_near (p q : Nat) (hq : 0 < q) (hn : 2 ^ 52 * q ≤ p) :
    round53 p q * q * 2 ^ 53 ≤ p * (2 ^ 53 + 1)
      ∧ p * (2 ^ 53 - 1) ≤ round53 p q * q * 2 ^ 53 := by
  obtain ⟨_, hs⟩ := excessBits_spec (p / q) (p / q) (le_refl _)
  have hD : 0 < q * 2 ^ excessBits (p / q) (p / q) := Nat.mul_pos hq (pow_pos (by norm_num) _)
  have hbig : 2 ^ 52 * (q * 2 ^ excessBits (p / q) (p / q)) ≤ p := by
    rcases hs with hs | hs
    · rw [hs, pow_zero, Nat.mul_one]; exact hn
    · rw [Nat.div_div_eq_div_mul] at hs
      have := (Nat.le_div_iff_mul_le hD).mp hs
      exact this
  obtain ⟨h1, h2⟩ := roundDiv_near p (q * 2 ^ excessBits (p / q) (p / q)) hD
  have hR : round53 p q * q
      = roundDiv p (q * 2 ^ excessBits (p / q) (p / q)) * (q * 2 ^ excessBits (p / q) (p / q)) := by
    unfold round53
    ring
  rw [hR]
  generalize roundDiv p (q * 2 ^ excessBits (p / q) (p / q))
    * (q * 2 ^ excessBits (p / q) (p / q)) = N at h1 h2
  generalize q * 2 ^ excessBits (p / q) (p / q) = D at hbig h1 h2
  norm_num at hbig ⊢
  omega

/-- One rounded addition in the normal range, against the exact sum. -/
theorem runningSum_step (inc c : Nat) (hn : 2 ^ 52 ≤ c + inc) :
    2 ^ 53 * round53 (c + inc) 1 ≤ 2 ^ 53 * (c + inc) + (c + inc)
      ∧ 2 ^ 53 * (c + inc) ≤ 2 ^ 53 * round53 (c + inc) 1 + (c + inc) := by
  obtain ⟨h1, h2⟩ := round53_near (c + inc) 1 (by norm_num) (by omega)
  generalize round53 (c + inc) 1 = R at h1 h2
  generalize c + inc = x at h1 h2
  norm_num at h1 h2 ⊢
  omega

/-- As long as the earlier sums stayed at or below the target, the sum after `k`
additions is `k` increments, up to `k` rounding errors of one part in 2^53 of
target plus increment. -/
theorem runningSum_bounds (Tn inc : Nat) (hinc : 2 ^ 52 ≤ inc) (k : Nat) :
    (∀ j, j < k → runningSum inc j ≤ Tn) →
    2 ^ 53 * runningSum inc k ≤ 2 ^ 53 * (k * inc) + (k * Tn + k * inc)
      ∧ 2 ^ 53 * (k * inc) ≤ 2 ^ 53 * runningSum inc k + (k * Tn + k * inc) := by
  induction k with
  | zero =>
    intro _
    simp [runningSum]
  | succ k ih =>
    intro hprev
    obtain ⟨b1, b2⟩ := ih (fun j hj => hprev j (by omega))
    have hk := hprev k (by omega)
    obtain ⟨s1, s2⟩ := runningSum_step inc (runningSum inc k) (by omega)
    have e1 : (k + 1) * inc = k * inc + inc := Nat.succ_mul k inc
    have e2 : (k + 1) * Tn = k * Tn + Tn := Nat.succ_mul k Tn
    have e3 : runningSum inc (k + 1) = round53 (runningSum inc k + inc) 1 := rfl
    rw [e1, e2, e3]
    generalize round53 (runningSum inc k + inc) 1 = R at s1 s2
    generalize runningSum inc k = c at b1 b2 hk s1 s2
    generalize k * inc = X at b1 b2
    generalize k * Tn = Y at b1 b2
    norm_num at b1 b2 s1 s2 ⊢
    omega

/-- Up to firing 124 the running sum is below the target. -/
theorem runningSum_below (Tn inc : Nat) (hT : 2 ^ 60 ≤ Tn)
    (i1 : 125 * 2 ^ 53 * inc ≤ (2 ^ 53 + 1) * Tn) (i2 : (2 ^ 53 - 1) * Tn ≤ 125 * 2 ^ 53 * inc) :
    ∀ k, k ≤ 124 → runningSum inc k < Tn := by
  have hinc : 2 ^ 52 ≤ inc := by
    norm_num at hT i2 ⊢
    omega
  intro k
  induction k using Nat.strong_induction_on with
  | _ k ih =>
    intro hk
    obtain ⟨b1, _⟩ := runningSum_bounds Tn inc hinc k
      (fun j hj => Nat.le_of_lt (ih j hj (by omega)))
    have m1 : k * inc ≤ 124 * inc := Nat.mul_le_mul_right inc hk
    have m2 : k * Tn ≤ 124 * Tn := Nat.mul_le_mul_right Tn hk
    generalize runningSum inc k = c at b1 ⊢
    generalize k * inc = X at b1 m1
    generalize k * Tn = Y at b1 m2
    norm_num at hT i1 b1 ⊢
    omega

/-- A sum still below the target after firing 125 reaches it at firing 126. -/
theorem runningSum_reaches (Tn inc : Nat) (hT : 2 ^ 60 ≤ Tn)
    (i1 : 125 * 2 ^ 53 * inc ≤ (2 ^ 53 + 1) * Tn) (i2 : (2 ^ 53 - 1) * Tn ≤ 125 * 2 ^ 53 * inc)
    (h125 : runningSum inc 125 < Tn) : Tn ≤ runningSum inc 126 := by
  have hinc : 2 ^ 52 ≤ inc := by
    norm_num at hT i2 ⊢
    omega
  have hbelow := runningSum_below Tn inc hT i1 i2
  obtain ⟨_, b2⟩ := runningSum_bounds Tn inc hinc 126 (fun j hj => by
    rcases Nat.lt_or_ge j 125 with h | h
    · exact Nat.le_of_lt (hbelow j (by omega))
    · have : j = 125 := by omega
      rw [this]; exact Nat.le_of_lt h125)
  generalize runningSum inc 126 = c at b2 ⊢
  norm_num at hT i1 i2 b2 ⊢
  omega

/-- A sum at or below the target does not go down at the next addition. -/
theorem runningSum_mono (Tn inc : Nat) (hT : 2 ^ 60 ≤ Tn)
    (i2 : (2 ^ 53 - 1) * Tn ≤ 125 * 2 ^ 53 * inc) (k : Nat)
    (hk : runningSum inc k ≤ Tn) : runningSum inc k ≤ runningSum inc (k + 1) := by
  have hinc : 2 ^ 52 ≤ inc := by
    norm_num at hT i2 ⊢
    omega
  obtain ⟨_, s2⟩ := runningSum_step inc (runningSum inc k) (by omega)
  have e3 : runningSum inc (k + 1) = round53 (runningSum inc k + inc) 1 := rfl
  rw [e3]
  generalize round53 (runningSum inc k + inc) 1 = R at s2 ⊢
  generalize runningSum inc k = c at hk s2 ⊢
  norm_num at hT i2 s2 ⊢
  omega

/-- Zero rounds to zero. -/
theorem round53_zero (q : Nat) (hq : 0 < q) : round53 0 q = 0 := by
  have hne : q ≠ 0 := by omega
  simp [round53, roundDiv, excessBits, hne]

/-- One is at least 2^60 units. -/
theorem unitsPerOne_large : 2 ^ 60 ≤ unitsPerOne := by
  rw [unitsPerOne]
  apply Nat.pow_le_pow_right <;> norm_num

/-- The increment of a target of at least one is the 125th part of the target, up
to one part in 2^53. -/
theorem increment_near (T : Nat) (hT : 0 < T) :
    2 ^ 60 ≤ T * unitsPerOne
      ∧ 125 * 2 ^ 53 * round53 (T * unitsPerOne) 125 ≤ (2 ^ 53 + 1) * (T * unitsPerOne)
      ∧ (2 ^ 53 - 1) * (T * unitsPerOne) ≤ 125 * 2 ^ 53 * round53 (T * unitsPerOne) 125 := by
  have hU := unitsPerOne_large
  have hbig : 2 ^ 60 ≤ T * unitsPerOne :=
    le_trans hU (Nat.le_mul_of_pos_left _ hT)
  obtain ⟨h1, h2⟩ := round53_near (T * unitsPerOne) 125 (by norm_num)
    (by norm_num at hbig ⊢; omega)
  refine ⟨hbig, ?_, ?_⟩
  · generalize round53 (T * unitsPerOne) 125 = R at h1 h2
    generalize T * unitsPerOne = Tn at h1 h2
    norm_num at h1 ⊢
    omega
  · generalize round53 (T * unitsPerOne) 125 = R at h1 h2
    generalize T * unitsPerOne = Tn at h1 h2
    norm_num at h2 ⊢
    omega

/-- The stop firing is the first firing at which the running sum has reached the
target. -/
theorem stopTick_spec (T : Nat) :
    1 ≤ stopTick T ∧ (T = 0 → stopTick T = 1) ∧ (0 < T → stopTick T = 125 ∨ stopTick T = 126)
      ∧ (∀ j, 1 ≤ j → j < stopTick T →
          runningSum (round53 (T * unitsPerOne) 125) j < T * unitsPerOne)
      ∧ T * unitsPerOne ≤ runningSum (round53 (T * unitsPerOne) 125) (stopTick T) := by
  rcases Nat.eq_zero_or_pos T with h0 | hpos
  · subst h0
    have hs : stopTick 0 = 1 := by simp [stopTick]
    rw [hs]
    refine ⟨le_refl _, fun _ => rfl, fun h => absurd h (by omega), fun j h1 h2 => by omega, ?_⟩
    simp
  · obtain ⟨hbig, i1, i2⟩ := increment_near T hpos
    have hne : T ≠ 0 := by omega
    have hbelow := runningSum_below _ _ hbig i1 i2
    by_cases h125 : T * unitsPerOne ≤ runningSum (round53 (T * unitsPerOne) 125) 125
    · have hs : stopTick T = 125 := by simp [stopTick, hne, h125]
      rw [hs]
      exact ⟨by norm_num, fun h => absurd h hne, fun _ => Or.inl rfl,
        fun j _ h2 => hbelow j (by omega), h125⟩
    · have hs : stopTick T = 126 := by simp [stopTick, hne, h125]
      rw [hs]
      refine ⟨by norm_num, fun h => absurd h hne, fun _ => Or.inr rfl, fun j _ h2 => ?_,
        runningSum_reaches _ _ hbig i1 i2 (by omega)⟩
      rcases Nat.lt_or_ge j 125 with h | h
      · exact hbelow j (by omega)
      · have : j = 125 := by omega
        rw [this]; omega

/-- The double nearest to a quotient of whole numbers of units. -/
theorem nearestUnits_natCast (a q : Nat) : nearestUnits (a : Int) q = ((round53 a q : Nat) : Int) := by
  have h : ¬ ((a : Int) < 0) := by omega
  simp [nearestUnits, h]

/-- One firing of a live timer on a target of `Tn` units with increment `inc` and
sum `c`: the new sum is the rounded `c + inc`, replaced by the target with the
timer cleared once it has reached the target; the text is its whole part. -/
theorem tick_live (e : CounterElem) (Tn inc c : Nat)
    (ht : e.timer = some ⟨some (Tn : Int), some (inc : Int), some (c : Int), true⟩) :
    (tick e).timer = some ⟨some (Tn : Int), some (inc : Int),
        some (((if Tn ≤ round53 (c + inc) 1 then Tn else round53 (c + inc) 1 : Nat)) : Int),
        !decide (Tn ≤ round53 (c + inc) 1)⟩
    ∧ (tick e).textContent
        = toString ((((if Tn ≤ round53 (c + inc) 1 then Tn else round53 (c + inc) 1)
            / unitsPerOne : Nat)) : Int)
    ∧ (tick e).animated = e.animated := by
  have hsum : nearestUnits ((c : Int) + (inc : Int)) 1 = ((round53 (c + inc) 1 : Nat) : Int) := by
    rw [← Nat.cast_add, nearestUnits_natCast]
  by_cases hle : Tn ≤ round53 (c + inc) 1
  · have hle2 : (Tn : Int) ≤ ((round53 (c + inc) 1 : Nat) : Int) := Nat.cast_le.mpr hle
    simp only [tick, ht, numAdd, numGe, hsum, hle, hle2, decide_True, if_true, floorText,
      Bool.not_true]
    refine ⟨trivial, ?_, trivial⟩
    rw [Int.natCast_div]
  · have hle2 : ¬ ((Tn : Int) ≤ ((round53 (c + inc) 1 : Nat) : Int)) := by
      intro h; exact hle (Nat.cast_le.mp h)
    simp only [tick, ht, numAdd, numGe, hsum, hle, hle2, decide_False, if_false, floorText,
      Bool.not_false, if_true, Bool.false_eq_true]
    refine ⟨trivial, ?_, trivial⟩
    rw [Int.natCast_div]

/-- A cleared timer fires no more: the element stays as it is. -/
theorem tick_cleared (e : CounterElem) (tm : CounterTimer) (ht : e.timer = some tm)
    (hl : tm.live = false) : tick e = e := by
  simp [tick, ht, hl]

/-- The element after `k` firings of the timer `animateCounter` started on a fresh
element with target `T`: the sum is the running sum of the increment before the
stop firing and the target from then on, the timer is live before the stop firing
only, and the text is the whole part of the sum. -/
theorem ticks_animateCounter (el : CounterElem) (T : Nat) (hfresh : el.animated = false)
    (htarget : el.dataTarget.map SafeInt.val = some (T : Int)) :
    ∀ k : Nat,
      (ticks k (animateCounter el)).timer
          = some ⟨some ((T * unitsPerOne : Nat) : Int),
              some ((round53 (T * unitsPerOne) 125 : Nat) : Int),
              some (((if k < stopTick T then runningSum (round53 (T * unitsPerOne) 125) k
                else T * unitsPerOne : Nat)) : Int),
              decide (k < stopTick T)⟩
      ∧ (1 ≤ k → (ticks k (animateCounter el)).textContent
          = toString ((((if k < stopTick T then runningSum (round53 (T * unitsPerOne) 125) k
                else T * unitsPerOne) / unitsPerOne : Nat)) : Int))
      ∧ (ticks k (animateCounter el)).animated = true := by
  obtain ⟨hs1, _, _, hbefore, hat⟩ := stopTick_spec T
  intro k
  induction k with
  | zero =>
    have hlt : 0 < stopTick T := by omega
    refine ⟨?_, fun h => absurd h (by omega), ?_⟩
    · cases hd : el.dataTarget with
      | none => simp [hd] at htarget
      | some n =>
        simp only [hd, Option.map_some', Option.some.injEq] at htarget
        simp only [ticks, animateCounter, hfresh, hd, Option.map_some', numDiv, htarget, hlt,
          if_true, runningSum, decide_True]
        rw [← Nat.cast_mul, nearestUnits_natCast]
        simp
    · simp [ticks, animateCounter, hfresh]
  | succ k ih =>
    obtain ⟨htm, htext, hanim⟩ := ih
    by_cases hlive : k < stopTick T
    · rw [if_pos hlive, decide_eq_true hlive] at htm
      obtain ⟨s1, s2, s3⟩ := tick_live (ticks k (animateCounter el)) (T * unitsPerOne)
        (round53 (T * unitsPerOne) 125) (runningSum (round53 (T * unitsPerOne) 125) k) htm
      have hnext : round53 (runningSum (round53 (T * unitsPerOne) 125) k
          + round53 (T * unitsPerOne) 125) 1
          = runningSum (round53 (T * unitsPerOne) 125) (k + 1) := rfl
      rw [hnext] at s1 s2
      by_cases hk1 : k + 1 < stopTick T
      · have hb := hbefore (k + 1) (by omega) hk1
        have hnot : ¬ (T * unitsPerOne ≤ runningSum (round53 (T * unitsPerOne) 125) (k + 1)) := by
          omega
        rw [if_neg hnot] at s1 s2
        refine ⟨?_, fun _ => ?_, ?_⟩
        · show (tick (ticks k (animateCounter el))).timer = _
          rw [s1, if_pos hk1, decide_eq_false hnot, decide_eq_true hk1]
          rfl
        · show (tick (ticks k (animateCounter el))).textContent = _
          rw [s2, if_pos hk1]
        · show (tick (ticks k (animateCounter el))).animated = true
          rw [s3]; exact hanim
      · have hkeq : k + 1 = stopTick T := by omega
        have hreach : T * unitsPerOne ≤ runningSum (round53 (T * unitsPerOne) 125) (k + 1) := by
          rw [hkeq]; exact hat
        rw [if_pos hreach] at s1 s2
        refine ⟨?_, fun _ => ?_, ?_⟩
        · show (tick (ticks k (animateCounter el))).timer = _
          rw [s1, if_neg hk1, decide_eq_true hreach, decide_eq_false hk1]
          rfl
        · show (tick (ticks k (animateCounter el))).textContent = _
          rw [s2, if_neg hk1]
        · show (tick (ticks k (animateCounter el))).animated = true
          rw [s3]; exact hanim
    · rw [if_neg hlive, decide_eq_false hlive] at htm
      have hfix : tick (ticks k (animateCounter el)) = ticks k (animateCounter el) :=
        tick_cleared _ _ htm rfl
      have hk1 : 1 ≤ k := by omega
      have hnext : ¬ (k + 1 < stopTick T) := by omega
      refine ⟨?_, fun _ => ?_, ?_⟩
      · show (tick (ticks k (animateCounter el))).timer = _
        rw [hfix, htm, if_neg hnext, decide_eq_false hnext]
      · show (tick (ticks k (animateCounter el))).textContent = _
        rw [hfix, htext hk1, if_neg hlive, if_neg hnext]
      · show (tick (ticks k (animateCounter el))).animated = true
        rw [hfix]; exact hanim

/-- Before the stop firing the sum is at or below the target. -/
theorem runningSum_le_target (T : Nat) (j : Nat) (hj : j < stopTick T) :
    runningSum (round53 (T * unitsPerOne) 125) j ≤ T * unitsPerOne := by
  obtain ⟨_, _, _, hbefore, _⟩ := stopTick_spec T
  rcases Nat.eq_zero_or_pos j with h0 | hpos
  · subst h0
    exact Nat.zero_le _
  · exact Nat.le_of_lt (hbefore j hpos hj)

/-- The sum the element holds after `k` firings, in units. -/
theorem heldSum_mono (T : Nat) (j k : Nat) (hjk : j ≤ k) :
    (if j < stopTick T then runningSum (round53 (T * unitsPerOne) 125) j else T * unitsPerOne)
      ≤ (if k < stopTick T then runningSum (round53 (T * unitsPerOne) 125) k
          else T * unitsPerOne) := by
  induction k with
  | zero =>
    have h0 : j = 0 := by omega
    subst h0
    exact le_refl _
  | succ k ih =>
    rcases Nat.lt_or_ge j (k + 1) with hlt | hge
    · refine le_trans (ih (by omega)) ?_
      by_cases hk1 : k + 1 < stopTick T
      · have hk : k < stopTick T := by omega
        rw [if_pos hk, if_pos hk1]
        have hpos : 0 < T := by
          obtain ⟨_, h0, _, _, _⟩ := stopTick_spec T
          rcases Nat.eq_zero_or_pos T with hz | hp
          · have := h0 hz
            omega
          · exact hp
        obtain ⟨hbig, _, i2⟩ := increment_near T hpos
        exact runningSum_mono _ _ hbig i2 k (runningSum_le_target T k hk)
      · rw [if_neg hk1]
        by_cases hk : k < stopTick T
        · rw [if_pos hk]
          exact runningSum_le_target T k hk
        · rw [if_neg hk]
    · have heq : j = k + 1 := by omega
      subst heq
      exact le_refl _

/-- The whole part shown before the stop firing, against `k * T / 125`. -/
theorem shown_bounds (T k : Nat) (h1 : 1 ≤ k) (hk : k < stopTick T) :
    125 * (runningSum (round53 (T * unitsPerOne) 125) k / unitsPerOne) * 2 ^ 53
        ≤ k * T * (2 ^ 53 + 128)
      ∧ k * T * (2 ^ 53 - 128)
        < 125 * (runningSum (round53 (T * unitsPerOne) 125) k / unitsPerOne + 1) * 2 ^ 53 := by
  obtain ⟨_, h0, _, _, _⟩ := stopTick_spec T
  have hpos : 0 < T := by
    rcases Nat.eq_zero_or_pos T with hz | hp
    · have := h0 hz
      omega
    · exact hp
  obtain ⟨hbig, i1, i2⟩ := increment_near T hpos
  have hinc : 2 ^ 52 ≤ round53 (T * unitsPerOne) 125 := by
    norm_num at hbig i2 ⊢
    omega
  obtain ⟨b1, b2⟩ := runningSum_bounds (T * unitsPerOne) _ hinc k
    (fun j hj => runningSum_le_target T j (by omega))
  have hU : 0 < unitsPerOne := lt_of_lt_of_le (by norm_num) unitsPerOne_large
  have hdm := Nat.div_add_mod (runningSum (round53 (T * unitsPerOne) 125) k) unitsPerOne
  have hmod := Nat.mod_lt (runningSum (round53 (T * unitsPerOne) 125) k) hU
  have k1 := Nat.mul_le_mul_left k i1
  have k2 := Nat.mul_le_mul_left k i2
  have e1 : k * (125 * 2 ^ 53 * round53 (T * unitsPerOne) 125)
      = 125 * 2 ^ 53 * (k * round53 (T * unitsPerOne) 125) := by ring
  have e2 : k * ((2 ^ 53 + 1) * (T * unitsPerOne)) = (2 ^ 53 + 1) * (k * (T * unitsPerOne)) := by
    ring
  have e3 : k * ((2 ^ 53 - 1) * (T * unitsPerOne)) = (2 ^ 53 - 1) * (k * (T * unitsPerOne)) := by
    ring
  rw [e1, e2] at k1
  rw [e1, e3] at k2
  generalize runningSum (round53 (T * unitsPerOne) 125) k / unitsPerOne = d at hdm ⊢
  generalize runningSum (round53 (T * unitsPerOne) 125) k % unitsPerOne = r at hdm hmod
  generalize runningSum (round53 (T * unitsPerOne) 125) k = c at hdm b1 b2
  generalize k * round53 (T * unitsPerOne) 125 = X at b1 b2 k1 k2
  constructor
  · apply Nat.le_of_mul_le_mul_right _ hU
    have g1 : 125 * d * 2 ^ 53 * unitsPerOne = 125 * 2 ^ 53 * (unitsPerOne * d) := by ring
    have g2 : k * T * (2 ^ 53 + 128) * unitsPerOne = (2 ^ 53 + 128) * (k * (T * unitsPerOne)) := by
      ring
    rw [g1, g2]
    generalize k * (T * unitsPerOne) = Y at b1 b2 k1 k2 ⊢
    generalize unitsPerOne * d = dU at hdm ⊢
    norm_num at b1 k1 ⊢
    omega
  · apply Nat.lt_of_mul_lt_mul_right (a := unitsPerOne)
    have g1 : 125 * (d + 1) * 2 ^ 53 * unitsPerOne
        = 125 * 2 ^ 53 * (unitsPerOne * d) + 125 * 2 ^ 53 * unitsPerOne := by ring
    have g2 : k * T * (2 ^ 53 - 128) * unitsPerOne = (2 ^ 53 - 128) * (k * (T * unitsPerOne)) := by
      ring
    rw [g1, g2]
    generalize k * (T * unitsPerOne) = Y at b1 b2 k1 k2 ⊢
    generalize unitsPerOne * d = dU at hdm ⊢
    generalize unitsPerOne = U at hmod ⊢
    norm_num at b2 k1 k2 ⊢
    omega

/-- On an element already marked `data-animated`, `animateCounter` returns at once. -/
theorem animateCounter_marked (e : CounterElem) (h : e.animated = true) :
    animateCounter e = e := by
  simp [animateCounter, h]

/-- C14 refuted on an element with `data-target="25"`: the increment 25/125 = 0.2
is not a double and the sums of its nearest double are rounded too, so after firing
10 the text is `1` where `floor(10 * 25 / 125)` is 2, and after firing 125 the sum
is still below 25 and the timer is still registered. -/
theorem animateCounter_falls_short :
    (ticks 10 (animateCounter sampleCounter)).textContent = "1"
    ∧ (ticks 10 (animateCounter sampleCounter)).textContent
        ≠ toString ((10 * 25 / 125 : ℕ) : ℤ)
    ∧ (ticks 125 (animateCounter sampleCounter)).timer.map CounterTimer.live = some true := by
  decide!

/-- C14, amended: for every element not yet marked `data-animated` whose
`data-target` parses to an integer `T` with `0 ≤ T ≤ 2^53`, in the double arithmetic
of the code there is a stop firing, firing 1 when `T = 0` and firing 125 or 126 when
`T > 0`, such that: (1) the timer is registered after firing `k` exactly when `k` is
before the stop firing, so it is cleared at the stop firing and fires no more; (2)
before the stop firing the text after firing `k` is a whole number `d` with
`125 * d ≤ k * T * (1 + 2^-46)` and `k * T * (1 - 2^-46) < 125 * (d + 1)`, which
for `T ≤ 2^39` is `floor(k * T / 125)`, or one less when 125 divides `k * T`; (3)
from the stop firing on the text is exactly `T`; (4) the values shown never decrease
and never exceed `T`; (5) a later call of `animateCounter` on the element changes
nothing. -/
theorem animateCounter_counts_up (el : CounterElem) (T : ℕ) (hfresh : el.animated = false)
    (htarget : el.dataTarget.map SafeInt.val = some (T : ℤ)) :
    ∃ stop : ℕ,
      (T = 0 → stop = 1) ∧ (0 < T → stop = 125 ∨ stop = 126)
      ∧ (∀ k, (ticks k (animateCounter el)).timer.map CounterTimer.live
          = some (decide (k < stop)))
      ∧ (∀ k, 1 ≤ k → k < stop → ∃ d : ℕ,
          (ticks k (animateCounter el)).textContent = toString (d : ℤ)
          ∧ 125 * d * 2 ^ 53 ≤ k * T * (2 ^ 53 + 128)
          ∧ k * T * (2 ^ 53 - 128) < 125 * (d + 1) * 2 ^ 53
          ∧ (T ≤ 2 ^ 39 → d = k * T / 125 ∨ (125 ∣ k * T ∧ d + 1 = k * T / 125)))
      ∧ (∀ k, stop ≤ k → (ticks k (animateCounter el)).textContent = toString (T : ℤ))
      ∧ (∀ j k, 1 ≤ j → j ≤ k → ∃ a b : ℕ,
          (ticks j (animateCounter el)).textContent = toString (a : ℤ)
          ∧ (ticks k (animateCounter el)).textContent = toString (b : ℤ)
          ∧ a ≤ b ∧ b ≤ T)
      ∧ (∀ k, animateCounter (ticks k (animateCounter el)) = ticks k (animateCounter el)) := by
  have hall := ticks_animateCounter el T hfresh htarget
  obtain ⟨hs1, hs0, hspos, hbefore, hat⟩ := stopTick_spec T
  have hU : 0 < unitsPerOne := lt_of_lt_of_le (by norm_num) unitsPerOne_large
  refine ⟨stopTick T, hs0, hspos, ?_, ?_, ?_, ?_, ?_⟩
  · intro k
    rw [(hall k).1]
    rfl
  · intro k h1 hk
    have htext := (hall k).2.1 h1
    rw [if_pos hk] at htext
    obtain ⟨b1, b2⟩ := shown_bounds T k h1 hk
    refine ⟨_, htext, b1, b2, ?_⟩
    intro hT
    have hk125 : k ≤ 125 := by
      rcases Nat.eq_zero_or_pos T with hz | hp
      · have := hs0 hz
        omega
      · rcases hspos hp with h | h <;> omega
    have hP : k * T ≤ 125 * 2 ^ 39 := Nat.mul_le_mul hk125 hT
    generalize runningSum (round53 (T * unitsPerOne) 125) k / unitsPerOne = d at b1 b2 ⊢
    generalize k * T = P at b1 b2 hP ⊢
    norm_num at b1 b2 hP ⊢
    omega
  · intro k hk
    have h1 : 1 ≤ k := by omega
    have htext := (hall k).2.1 h1
    rw [if_neg (by omega), Nat.mul_div_cancel _ hU] at htext
    exact htext
  · intro j k h1 hjk
    refine ⟨_, _, (hall j).2.1 h1, (hall k).2.1 (le_trans h1 hjk),
      Nat.div_le_div_right (heldSum_mono T j k hjk), ?_⟩
    have hle : (if k < stopTick T then runningSum (round53 (T * unitsPerOne) 125) k
        else T * unitsPerOne) ≤ T * unitsPerOne := by
      by_cases hk : k < stopTick T
      · rw [if_pos hk]
        exact runningSum_le_target T k hk
      · rw [if_neg hk]
    calc _ ≤ T * unitsPerOne / unitsPerOne := Nat.div_le_div_right hle
      _ = T := Nat.mul_div_cancel _ hU
  · intro k
    exact animateCounter_marked _ (hall k).2.2

/-- C14 amended, at an element with `data-target="25"`. -/
theorem animateCounter_counts_up_witness :
    ∃ stop : ℕ,
      (25 = 0 → stop = 1) ∧ (0 < 25 → stop = 125 ∨ stop = 126)
      ∧ (∀ k, (ticks k (animateCounter sampleCounter)).timer.map CounterTimer.live
          = some (decide (k < stop)))
      ∧ (∀ k, 1 ≤ k → k < stop → ∃ d : ℕ,
          (ticks k (animateCounter sampleCounter)).textContent = toString (d : ℤ)
          ∧ 125 * d * 2 ^ 53 ≤ k * 25 * (2 ^ 53 + 128)
          ∧ k * 25 * (2 ^ 53 - 128) < 125 * (d + 1) * 2 ^ 53
          ∧ (25 ≤ 2 ^ 39 → d = k * 25 / 125 ∨ (125 ∣ k * 25 ∧ d + 1 = k * 25 / 125)))
      ∧ (∀ k, stop ≤ k →
          (ticks k (animateCounter sampleCounter)).textContent = toString ((25 : ℕ) : ℤ))
      ∧ (∀ j k, 1 ≤ j → j ≤ k → ∃ a b : ℕ,
          (ticks j (animateCounter sampleCounter)).textContent = toString (a : ℤ)
          ∧ (ticks k (animateCounter sampleCounter)).textContent = toString (b : ℤ)
          ∧ a ≤ b ∧ b ≤ 25)
      ∧ (∀ k, animateCounter (ticks k (animateCounter sampleCounter))
          = ticks k (animateCounter sampleCounter)) :=
  animateCounter_counts_up sampleCounter 25 rfl rfl


end CyberSentinel
